import Mathlib

/-!
Verification of the strands-web-ui event handling and filtering layer.

We shallowly embed the Python data model: JSON-like callback payloads
become `PyVal`, Streamlit session state becomes an explicit record, and
each handler method becomes a pure state-passing function translated from
the source.  Wall-clock readings are passed in explicitly as `Nat`
parameters wherever the source calls `time.time()` / `datetime.now()`.
-/

namespace StrandsWebUI

/-- Python values as they appear in callback event payloads. -/
inductive PyVal : Type where
  | str (s : String)
  | int (n : Int)
  | float (q : Rat)
  | bool (b : Bool)
  | none
  | list (l : List PyVal)
  | dict (d : List (String × PyVal))
deriving Repr, Inhabited

/-- Structural equality on `PyVal`, modelling Python `==` on JSON-like data. -/
def PyVal.beq : PyVal → PyVal → Bool
  | .str a, .str b => a == b
  | .int a, .int b => a == b
  | .float a, .float b => a == b
  | .bool a, .bool b => a == b
  | .none, .none => true
  | .list [], .list [] => true
  | .list (a :: as), .list (b :: bs) => PyVal.beq a b && PyVal.beq (.list as) (.list bs)
  | .dict [], .dict [] => true
  | .dict ((k, a) :: as), .dict ((j, b) :: bs) =>
      k == j && PyVal.beq a b && PyVal.beq (.dict as) (.dict bs)
  | _, _ => false
termination_by a b => sizeOf a + sizeOf b
decreasing_by all_goals (simp; omega)

instance : BEq PyVal := ⟨PyVal.beq⟩

/-- A Python keyword-argument dictionary (`**kwargs`): insertion ordered. -/
abbrev PyDict := List (String × PyVal)

/-- `d.get(k, default)` on a Python dict. -/
def pyGet (d : PyDict) (k : String) (default : PyVal) : PyVal :=
  match d.find? (fun kv => kv.1 = k) with
  | some kv => kv.2
  | Option.none => default

/-- `k in d` on a Python dict. -/
def pyHas (d : PyDict) (k : String) : Bool :=
  d.any (fun kv => kv.1 = k)

/-- Python truthiness of a value (`if v:`). -/
def pyTruthy : PyVal → Bool
  | .str s => s != ""
  | .int n => n != 0
  | .float q => q != 0
  | .bool b => b
  | .none => false
  | .list l => !l.isEmpty
  | .dict d => !d.isEmpty

/-- `d[k] = v` on a Python dict: replace in place, or append a new key. -/
def pySet (d : PyDict) (k : String) (v : PyVal) : PyDict :=
  if pyHas d k then d.map (fun kv => if kv.1 = k then (k, v) else kv) else d ++ [(k, v)]

/-- `v[k] = x` when `v` is a dict value (the source only performs this on dicts;
on any other value Python would raise, a case never reached by the reasoning
actions whose `input_data` is always created as a dict). -/
def pyValSetKey (v : PyVal) (k : String) (x : PyVal) : PyVal :=
  match v with
  | .dict dd => .dict (pySet dd k x)
  | other => other

/-- `v[k]` lookup on a dict value, with `PyVal.none` when absent. -/
def pyValGetKey (v : PyVal) (k : String) : PyVal :=
  match v with
  | .dict dd => pyGet dd k .none
  | _ => .none

/-! ## Action history capture (`action_history/capture.py`) -/

/-- `ActionEvent` dataclass.  `timestamp` is an abstract clock reading
(`datetime.now()` readings are passed in as `Nat` parameters); `duration`
is the difference of two readings. -/
structure ActionEvent where
  id : String
  turn : Nat
  timestamp : Nat
  action_type : String
  tool_name : PyVal := .none
  tool_source : String := "unknown"
  tool_use_id : PyVal := .none
  input_data : PyVal := .dict []
  output_data : PyVal := .none
  status : PyVal := .none
  duration : Option Nat := Option.none
  reasoning_context : PyVal := .none
deriving Repr

/-- Instance state of `ActionHistoryCapture`.  In the source,
`pending_tool_uses` maps a toolUseId to the very `ActionEvent` object that
was appended to `actions`; mutating it through the dict mutates the list
entry.  We model that aliasing by storing the index of the entry in
`actions` (entries are only ever appended, and `clear_history` empties
both structures, so indices stay valid). -/
structure Capture where
  actions : List ActionEvent
  current_turn : Nat
  pending_tool_uses : List (PyVal × Nat)
  current_reasoning : String
  reasoning_start_time : Option Nat
  action_counter : Nat
deriving Repr

/-- Streamlit `st.session_state` keys touched by the modelled code.  The
`action_capture` entry aliases the live `ActionHistoryCapture` instance in
Python; we keep it equal to the instance state whenever the instance syncs. -/
structure Session where
  action_history : List ActionEvent
  current_turn : Nat
  action_capture : Capture
  show_action_history : Bool
  action_history_expanded : Bool
  conversation_id : String
  last_cleanup_time : Nat
  action_capture_initialized : Bool
  messages : List PyVal
  thinking_history : List (Nat × String)
  thinking_content : String
deriving Repr

/-- `_sync_to_session_state`: copy `actions` and `current_turn` into the
session store (the `action_capture` entry aliases the instance itself). -/
def syncToSession (c : Capture) (ses : Session) : Session :=
  { ses with action_history := c.actions, current_turn := c.current_turn, action_capture := c }

/-- `_generate_action_id` (after the counter was incremented). -/
def mkActionId (turn counter now : Nat) : String :=
  "action_" ++ toString turn ++ "_" ++ toString counter ++ "_" ++ toString now

/-- The `strands_sdk_tools` set of `_determine_tool_source`. -/
def strandsSdkTools : List String :=
  ["calculator", "editor", "environment", "file_read", "file_write",
   "http_request", "python_repl", "shell", "think", "workflow"]

/-- `_determine_tool_source`; returns `Option.none` when the tool name is not a
string (Python raises `AttributeError` on `.startswith`, caught by the
caller's `except`). -/
def determineToolSource : PyVal → Option String
  | .str n =>
      some (if strandsSdkTools.contains n then "strands_sdk"
            else if n.startsWith "mcp_" || n.contains '.' then "mcp"
            else "custom")
  | _ => Option.none

/-- Python hashability of a payload value: using a dict or a list as a dict
key (membership test, store or lookup) raises `TypeError`; every scalar
value here is hashable. -/
def hashable : PyVal → Bool
  | .list _ => false
  | .dict _ => false
  | _ => true

/-- The numeric value of a Python scalar, when it has one: `bool` is an
`int` subclass (`True == 1`), and `int`/`float` compare by value. -/
def pyNum : PyVal → Option Rat
  | .int n => some (n : Rat)
  | .float q => some q
  | .bool b => some (if b then 1 else 0)
  | _ => Option.none

/-- Python `==` as used for dict-key matching on hashable values: numeric
values compare by value across `bool`/`int`/`float`, strings by content,
`None` only to itself, and values of unrelated kinds are unequal.
Container keys never reach a comparison: hashing them raises `TypeError`
first. -/
def pyKeyEq (a b : PyVal) : Bool :=
  match pyNum a, pyNum b with
  | some x, some y => x == y
  | _, _ =>
      match a, b with
      | .str s, .str t => s == t
      | .none, .none => true
      | _, _ => false

/-- Dict update on the pending-tool-use map (Python `d[k] = v`): a key
matching under `==` keeps its original key object, value replaced. -/
def pendSet (p : List (PyVal × Nat)) (k : PyVal) (v : Nat) : List (PyVal × Nat) :=
  if p.any (fun kv => pyKeyEq kv.1 k) then
    p.map (fun kv => if pyKeyEq kv.1 k then (kv.1, v) else kv)
  else p ++ [(k, v)]

/-- Dict lookup on the pending-tool-use map (`k in d` / `d[k]`). -/
def pendFind (p : List (PyVal × Nat)) (k : PyVal) : Option Nat :=
  (p.find? (fun kv => pyKeyEq kv.1 k)).map (fun kv => kv.2)

/-- Dict deletion on the pending-tool-use map (`del d[k]`). -/
def pendDel (p : List (PyVal × Nat)) (k : PyVal) : List (PyVal × Nat) :=
  p.filter (fun kv => !pyKeyEq kv.1 k)

/-- In-place update of the list element at index `i` (mutation of the aliased
`ActionEvent` object). -/
def listModify : List α → Nat → (α → α) → List α
  | [], _, _ => []
  | a :: rest, 0, f => f a :: rest
  | a :: rest, Nat.succ i, f => a :: listModify rest i f

/-- `capture_tool_use`.  The three silent-failure branches mirror the
method's `except`: a non-dict payload raises on `.get` before anything
changed; a non-string tool name raises inside `_determine_tool_source`
after the id counter was already incremented; and an unhashable (dict or
list) `toolUseId` raises `TypeError` at
`self.pending_tool_uses[tool_use_id] = action` — after the counter
increment but before the action is appended or the session synced. -/
def captureToolUse (now : Nat) (d : PyVal) (c : Capture) (ses : Session) :
    Capture × Session :=
  match d with
  | .dict dd =>
      let tid := pyGet dd "toolUseId" (.str "unknown")
      let name := pyGet dd "name" (.str "unknown")
      let input := pyGet dd "input" (.dict [])
      let c1 := { c with action_counter := c.action_counter + 1 }
      match determineToolSource name with
      | Option.none => (c1, ses)
      | some src =>
          let a : ActionEvent :=
            { id := mkActionId c.current_turn c1.action_counter now,
              turn := c.current_turn,
              timestamp := now,
              action_type := "tool_use",
              tool_name := name,
              tool_source := src,
              tool_use_id := tid,
              input_data := input,
              reasoning_context :=
                if c.current_reasoning ≠ "" then .str c.current_reasoning else .none }
          if hashable tid then
            let idx := c1.actions.length
            let c2 := { c1 with
              pending_tool_uses := pendSet c1.pending_tool_uses tid idx,
              actions := c1.actions ++ [a] }
            (c2, syncToSession c2 ses)
          else (c1, ses)
  | _ => (c, ses)

/-- `capture_tool_result`.  An unhashable (dict or list) `toolUseId` raises
`TypeError` at the `tool_use_id in self.pending_tool_uses` membership test,
swallowed by the method's `except` before anything changed. -/
def captureToolResult (now : Nat) (d : PyVal) (c : Capture) (ses : Session) :
    Capture × Session :=
  match d with
  | .dict dd =>
      let tid := pyGet dd "toolUseId" (.str "unknown")
      let status := pyGet dd "status" (.str "unknown")
      let content := pyGet dd "content" (.list [])
      if hashable tid then
      match pendFind c.pending_tool_uses tid with
      | some idx =>
          let c2 := { c with
            actions := listModify c.actions idx (fun a =>
              { a with
                output_data := .dict [("status", status), ("content", content)],
                status := status,
                duration := some (now - a.timestamp) }),
            pending_tool_uses := pendDel c.pending_tool_uses tid }
          (c2, syncToSession c2 ses)
      | Option.none =>
          let c1 := { c with action_counter := c.action_counter + 1 }
          let a : ActionEvent :=
            { id := mkActionId c.current_turn c1.action_counter now,
              turn := c.current_turn,
              timestamp := now,
              action_type := "tool_result",
              tool_use_id := tid,
              output_data := .dict [("status", status), ("content", content)],
              status := status }
          let c2 := { c1 with actions := c1.actions ++ [a] }
          (c2, syncToSession c2 ses)
      else (c, ses)
  | _ => (c, ses)

/-- Update the most recent action satisfying `p`
(`for action in reversed(self.actions): if ...: ...; break`). -/
def updLast (p : α → Bool) (f : α → α) : List α → List α
  | [] => []
  | a :: rest =>
      if rest.any p then a :: updLast p f rest
      else if p a then f a :: rest
      else a :: rest

/-- Extraction of the reasoning text in `capture_reasoning` (the value may be
any `PyVal`; truthiness and string-ness are checked by the caller). -/
def extractReasoningText : PyVal → PyVal
  | .dict dd =>
      if pyHas dd "text" then pyGet dd "text" .none
      else if pyHas dd "reasoningText" then
        match pyGet dd "reasoningText" .none with
        | .dict rd => if pyHas rd "text" then pyGet rd "text" .none else .dict rd
        | other => other
      else .str ""
  | .str s => .str s
  | _ => .str ""

/-- `capture_reasoning`.  When the extracted value is truthy but not a string,
`self.current_reasoning += reasoning_text` raises `TypeError` (caught by the
method's `except`) after the new action was already appended and before any
sync: that branch returns the partially updated state with the old session. -/
def captureReasoning (now : Nat) (d : PyVal) (c : Capture) (ses : Session) :
    Capture × Session :=
  let rt := extractReasoningText d
  if pyTruthy rt then
    let c1 :=
      if c.current_reasoning = "" then
        let cA := { c with
          reasoning_start_time := some now,
          action_counter := c.action_counter + 1 }
        let a : ActionEvent :=
          { id := mkActionId c.current_turn cA.action_counter now,
            turn := c.current_turn,
            timestamp := now,
            action_type := "reasoning",
            input_data := .dict [("reasoning_text", rt)] }
        { cA with actions := cA.actions ++ [a] }
      else c
    match rt with
    | .str t =>
        let c2 := { c1 with current_reasoning := c1.current_reasoning ++ t }
        let c3 := { c2 with
          actions := updLast
            (fun a => a.action_type == "reasoning" && a.turn == c2.current_turn)
            (fun a =>
              { a with
                input_data := pyValSetKey a.input_data "reasoning_text"
                  (.str c2.current_reasoning),
                duration := match c2.reasoning_start_time with
                  | some st => some (now - st)
                  | Option.none => a.duration })
            c2.actions }
        (c3, syncToSession c3 ses)
    | _ => (c1, ses)
  else (c, ses)

/-- `capture_reasoning_end` (updates the last reasoning action's duration;
does not sync and does not clear `current_reasoning`). -/
def captureReasoningEnd (now : Nat) (c : Capture) (ses : Session) :
    Capture × Session :=
  if c.current_reasoning ≠ "" then
    match c.reasoning_start_time with
    | some st =>
        let acts := updLast
          (fun a => a.action_type == "reasoning" && a.turn == c.current_turn)
          (fun a => { a with duration := some (now - st) })
          c.actions
        ({ c with actions := acts }, ses)
    | Option.none => (c, ses)
  else (c, ses)

/-- `start_new_turn`. -/
def startNewTurn (c : Capture) (ses : Session) : Capture × Session :=
  let c1 := { c with
    current_turn := c.current_turn + 1,
    current_reasoning := "",
    reasoning_start_time := Option.none }
  (c1, syncToSession c1 ses)

/-- `get_actions_for_turn`. -/
def getActionsForTurn (c : Capture) (turn : Nat) : List ActionEvent :=
  c.actions.filter (fun a => a.turn == turn)

/-- `clear_history`. -/
def clearHistory (c : Capture) (ses : Session) : Capture × Session :=
  let c1 : Capture :=
    { actions := [], current_turn := 0, pending_tool_uses := [],
      current_reasoning := "", reasoning_start_time := Option.none,
      action_counter := 0 }
  let _ := c
  (c1, syncToSession c1 ses)

/-- `ActionHistoryCapture.__init__`: default fields, then
`_initialize_session_state` (all keys already exist in this model except the
`action_capture_initialized` marker) and `_sync_from_session_state`. -/
def captureInit (ses : Session) : Capture × Session :=
  let ses1 := { ses with action_capture_initialized := true }
  let c : Capture :=
    { actions := ses1.action_history,
      current_turn := ses1.current_turn,
      pending_tool_uses := [],
      current_reasoning := "",
      reasoning_start_time := Option.none,
      action_counter := 0 }
  (c, ses1)

/-- The string a `capture_reasoning` payload contributes (empty when the
extracted value is not a string). -/
def reasoningTextOf (d : PyVal) : String :=
  match extractReasoningText d with
  | .str t => t
  | _ => ""

/-- Concatenation of the reasoning chunks contributed by a sequence of
timestamped payloads. -/
def concatReasoningTexts (tds : List (Nat × PyVal)) : String :=
  (tds.map (fun td => reasoningTextOf td.2)).foldr (fun a b => a ++ b) ""

/-- An uninterrupted series of `capture_reasoning` calls (each with its own
clock reading), with no intervening `start_new_turn` or `clear_history`. -/
def foldReasoning (tds : List (Nat × PyVal)) (p : Capture × Session) :
    Capture × Session :=
  tds.foldl (fun q td => captureReasoning td.1 td.2 q.1 q.2) p

/-- The synchronisation invariant maintained by `_sync_to_session_state`:
the session store mirrors the instance's actions list and turn counter. -/
def synced (c : Capture) (ses : Session) : Prop :=
  ses.action_history = c.actions ∧ ses.current_turn = c.current_turn

/-! ## Session state manager (`utils/session_state_manager.py`) -/

/-- `SessionStateManager.start_new_conversation`: clear the history and turn
counter, install a fresh `ActionHistoryCapture` (whose constructor syncs from
the just-cleared session), generate a new conversation id and stamp the
cleanup time.  `now` abstracts `datetime.now()` and `newId` the generated
`conv_..._uuid` string. -/
def startNewConversation (now : Nat) (newId : String) (ses : Session) : Session :=
  let ses1 := { ses with action_history := [], current_turn := 0 }
  let (c, ses2) := captureInit ses1
  { ses2 with
    action_capture := c,
    conversation_id := newId,
    last_cleanup_time := now }

/-! ## Regex engine for the reasoning-filter patterns

Every pattern used by `_filter_reasoning_patterns` (flags
`IGNORECASE | DOTALL`) has the shape `lit1 .*? (?=\.|$)` or
`lit1 .*? lit2 .*? (?=\.|$)`, and every pattern used by
`_filter_reasoning_content` (flags `IGNORECASE | MULTILINE`, no DOTALL) has
the same shape with lookahead `(?=\n|$)`.  We implement exactly these
shapes: case-insensitive literal match, lazy gap, zero-width lookahead, and
`re.sub`'s leftmost non-overlapping scan. -/

/-- The apostrophe character (several pattern literals contain one). -/
def apos : Char := Char.ofNat 39

/-- One-character apostrophe string. -/
def sq : String := String.mk [apos]

/-- Python `\s` / `str.strip` whitespace (the Unicode whitespace set). -/
def pyIsSpace (c : Char) : Bool :=
  (9 ≤ c.toNat && c.toNat ≤ 13) || (28 ≤ c.toNat && c.toNat ≤ 32) ||
  c.toNat == 133 || c.toNat == 160 || c.toNat == 0x1680 ||
  (0x2000 ≤ c.toNat && c.toNat ≤ 0x200a) ||
  c.toNat == 0x2028 || c.toNat == 0x2029 || c.toNat == 0x202f ||
  c.toNat == 0x205f || c.toNat == 0x3000

/-- `re.IGNORECASE` character comparison (ASCII case folding, which covers
every pattern literal). -/
def lowerEq (a b : Char) : Bool := a.toLower == b.toLower

/-- Case-insensitive literal prefix match of a pattern literal against the
text. -/
def ciPrefix : List Char → List Char → Bool
  | [], _ => true
  | _ :: _, [] => false
  | a :: as, b :: bs => lowerEq a b && ciPrefix as bs

/-- Lazy `.*?(?=\.|$)` scan under DOTALL without MULTILINE: consume as few
characters as possible until the next one is a dot, the end of the string,
or the final character and a newline (`$` also matches just before a
trailing newline); returns the suffix at the match end. -/
def laDotall : List Char → List Char
  | [] => []
  | c :: rest =>
      if c = '.' then c :: rest
      else if c = '\n' ∧ rest = [] then c :: rest
      else laDotall rest

/-- Lazy `.*?(?=\n|$)` scan without DOTALL (so `.` cannot cross a newline):
stop at the next newline or the end of the string. -/
def laLine : List Char → List Char
  | [] => []
  | c :: rest => if c = '\n' then c :: rest else laLine rest

/-- Lazy `.*? lit` under DOTALL: find the earliest case-insensitive match
of `lit` and return the suffix after it. -/
def findLitD (lit : List Char) : List Char → Option (List Char)
  | [] => if ciPrefix lit [] then some [] else Option.none
  | c :: t =>
      if ciPrefix lit (c :: t) then some ((c :: t).drop lit.length)
      else findLitD lit t

/-- Lazy `.*? lit` without DOTALL: as `findLitD` but the gap cannot cross a
newline. -/
def findLitL (lit : List Char) : List Char → Option (List Char)
  | [] => if ciPrefix lit [] then some [] else Option.none
  | c :: t =>
      if ciPrefix lit (c :: t) then some ((c :: t).drop lit.length)
      else if c = '\n' then Option.none
      else findLitL lit t

/-- A filter pattern: a leading literal, an optional second literal behind a
lazy gap, and the trailing `.*?` + lookahead implied by the shape. -/
structure RePat where
  lit1 : List Char
  lit2 : Option (List Char) := Option.none
  ne1 : lit1 ≠ [] := by decide

/-- Try to match a streamlit-handler pattern (DOTALL, `(?=\.|$)`) at the
head of `l`; on success return the suffix at the match end. -/
def tryMatchD (p : RePat) (l : List Char) : Option (List Char) :=
  if ciPrefix p.lit1 l then
    let rest := l.drop p.lit1.length
    match p.lit2 with
    | some lit2 =>
        match findLitD lit2 rest with
        | some r2 => some (laDotall r2)
        | Option.none => Option.none
    | Option.none => some (laDotall rest)
  else Option.none

/-- Try to match a clean-handler pattern (no DOTALL, `(?=\n|$)`) at the
head of `l`. -/
def tryMatchL (p : RePat) (l : List Char) : Option (List Char) :=
  if ciPrefix p.lit1 l then
    let rest := l.drop p.lit1.length
    match p.lit2 with
    | some lit2 =>
        match findLitL lit2 rest with
        | some r2 => some (laLine r2)
        | Option.none => Option.none
    | Option.none => some (laLine rest)
  else Option.none

/-- `re.sub(pattern, "", text)` scanning loop: at each position try the
match; on success drop the matched span and continue at its end, otherwise
keep the character and move on.  Each successful match consumes at least
the head literal, so `l.length` steps of fuel always suffice. -/
def subGo (tm : List Char → Option (List Char)) : Nat → List Char → List Char
  | 0, l => l
  | Nat.succ _, [] => []
  | Nat.succ n, c :: rest =>
      match tm (c :: rest) with
      | some r => subGo tm n r
      | Option.none => c :: subGo tm n rest

/-- `re.sub(pattern, "", text)` over a whole text. -/
def reSub (tm : List Char → Option (List Char)) (l : List Char) : List Char :=
  subGo tm l.length l

/-- The `reasoning_patterns` list of `_filter_reasoning_patterns`, in source
order. -/
def reasoningPatterns : List RePat :=
  [{ lit1 := ("I" ++ sq ++ "ll use the browser tool to search for").toList, ne1 := by decide },
   { lit1 := ("I" ++ sq ++ "ll search for").toList, ne1 := by decide },
   { lit1 := "Let me search for".toList },
   { lit1 := "Let me try".toList },
   { lit1 := "I need to".toList },
   { lit1 := ("First, I" ++ sq ++ "ll").toList, ne1 := by decide },
   { lit1 := ("Now I" ++ sq ++ "ll").toList, ne1 := by decide },
   { lit1 := "I should".toList },
   { lit1 := "Let me check".toList },
   { lit1 := ("I" ++ sq ++ "m going to").toList, ne1 := by decide },
   { lit1 := "Based on the search results".toList, lit2 := some "Let me".toList },
   { lit1 := ("I" ++ sq ++ "m receiving large responses").toList,
     lit2 := some "Let me".toList, ne1 := by decide },
   { lit1 := "Now let me".toList },
   { lit1 := "Let me click".toList },
   { lit1 := ("I" ++ sq ++ "ll click").toList, ne1 := by decide },
   { lit1 := "Let me now take".toList },
   { lit1 := "Now, let me look at".toList },
   { lit1 := "Let me look at one of".toList }]

/-- Apply all `reasoning_patterns` substitutions in order. -/
def subAllPatterns (l : List Char) : List Char :=
  reasoningPatterns.foldl (fun acc p => reSub (tryMatchD p) acc) l

/-- `re.sub(r"\s+", " ", text)`: each maximal whitespace run becomes one
space.  `sawSpace` records whether the scanner is inside a run. -/
def collapseGo (sawSpace : Bool) : List Char → List Char
  | [] => []
  | c :: rest =>
      if pyIsSpace c then
        if sawSpace then collapseGo true rest
        else ' ' :: collapseGo true rest
      else c :: collapseGo false rest

/-- Whitespace-run collapsing over a whole text. -/
def collapseWs (l : List Char) : List Char := collapseGo false l

/-- Python `str.strip()`. -/
def pyStripL (l : List Char) : List Char :=
  ((l.dropWhile pyIsSpace).reverse.dropWhile pyIsSpace).reverse

/-- `StreamlitHandler._filter_reasoning_patterns`: falsy text is returned
unchanged; otherwise remove the pattern matches, collapse whitespace runs,
strip, and drop survivors shorter than 10 characters. -/
def filter_reasoning_patterns (s : String) : String :=
  if s = "" then s
  else
    let f := pyStripL (collapseWs (subAllPatterns s.toList))
    if f.isEmpty || f.length < 10 then "" else String.mk f

/-- The `reasoning_patterns` list of
`CleanResponseHandler._filter_reasoning_content`, in source order. -/
def cleanPatterns : List RePat :=
  [{ lit1 := ("I" ++ sq ++ "ll use the browser tool to search").toList, ne1 := by decide },
   { lit1 := "Let me search for".toList },
   { lit1 := ("I" ++ sq ++ "ll search for").toList, ne1 := by decide },
   { lit1 := "Let me try".toList },
   { lit1 := "Let me click".toList },
   { lit1 := ("I" ++ sq ++ "ll click").toList, ne1 := by decide },
   { lit1 := "Now let me".toList },
   { lit1 := "Let me now".toList },
   { lit1 := "Based on the search results".toList, lit2 := some "Let me".toList },
   { lit1 := ("I" ++ sq ++ "m receiving large responses").toList,
     lit2 := some "Let me".toList, ne1 := by decide }]

/-- The `\s*\n` tail of a `\n\s*\n` match: scan the whitespace run after
the first newline and (greedily) stop after the last newline inside it;
return the suffix after the match. -/
def blankMatch : List Char → Option (List Char)
  | [] => Option.none
  | c :: rest =>
      if pyIsSpace c then
        match blankMatch rest with
        | some r => some r
        | Option.none => if c = '\n' then some rest else Option.none
      else Option.none

/-- `re.sub(r"\n\s*\n", "\n\n", text)` scanning loop. -/
def subBlankGo : Nat → List Char → List Char
  | 0, l => l
  | Nat.succ _, [] => []
  | Nat.succ n, c :: rest =>
      if c = '\n' then
        match blankMatch rest with
        | some r => '\n' :: '\n' :: subBlankGo n r
        | Option.none => c :: subBlankGo n rest
      else c :: subBlankGo n rest

/-- Blank-line collapsing over a whole text. -/
def subBlank (l : List Char) : List Char := subBlankGo l.length l

/-- `CleanResponseHandler._filter_reasoning_content`: falsy text is
returned unchanged; otherwise apply the clean-handler patterns, collapse
blank lines, and strip. -/
def filterReasoningContent (s : String) : String :=
  if s = "" then s
  else
    let l1 := cleanPatterns.foldl (fun acc p => reSub (tryMatchL p) acc) s.toList
    String.mk (pyStripL (subBlank l1))

/-! ## StreamlitHandler text classifiers (`handlers/streamlit_handler.py`) -/

/-- Python `str.lower()` (ASCII folding covers every classifier phrase). -/
def pyLower (s : String) : String := String.mk (s.toList.map Char.toLower)

/-- Python `str.strip()` on strings. -/
def pyStrip (s : String) : String := String.mk (pyStripL s.toList)

/-- Substring occurrence test used for Python `needle in haystack`. -/
def subListAt (needle : List Char) : List Char → Bool
  | [] => needle.isEmpty
  | c :: t => needle.isPrefixOf (c :: t) || subListAt needle t

/-- Python `needle in hay` for strings. -/
def strContains (hay needle : String) : Bool := subListAt needle.toList hay.toList

/-- Python `str.split()` (split on whitespace runs, dropping empties). -/
def pySplitGo (acc : List Char) : List Char → List (List Char)
  | [] => if acc.isEmpty then [] else [acc.reverse]
  | c :: t =>
      if pyIsSpace c then
        if acc.isEmpty then pySplitGo [] t else acc.reverse :: pySplitGo [] t
      else pySplitGo (c :: acc) t

/-- Python `str.split()` over a string. -/
def pySplit (s : String) : List String := (pySplitGo [] s.toList).map String.mk

/-- The `reasoning_indicators` list of `_is_reasoning_text`. -/
def reasoningIndicators : List String :=
  ["i" ++ sq ++ "ll use the browser tool", "let me search for",
   "i" ++ sq ++ "ll search for", "let me try", "i need to", "now let me",
   "let me click", "i" ++ sq ++ "ll click", "based on the search results",
   "let me now take", "i" ++ sq ++ "m receiving large responses",
   "let me try a different approach", "let me try another",
   "now, let me look at", "let me look at one of",
   "i" ++ sq ++ "ll help you search", "let me use the browser"]

/-- The `reasoning_fragments` list of `_is_reasoning_text`. -/
def reasoningFragments : List String :=
  ["search for", "use the browser", "click the", "look at", "try another",
   "try a different", "now let", "let me", "i" ++ sq ++ "ll", "based on",
   "search query", "search button", "search results", "informative search",
   "comprehensive summary", "latest samsung", "genai use cases",
   "galaxy phones", "samsung galaxy", "browser to look", "help me provide",
   "better visualize", "take a screenshot"]

/-- The `reasoning_words` list of `_is_reasoning_text`. -/
def reasoningWords : List String :=
  ["search", "click", "try", "look", "let", "now", "use", "browser",
   "query", "button", "results", "samsung", "galaxy", "genai", "cases",
   "latest", "phones"]

/-- `StreamlitHandler._is_reasoning_text`.  The final ratio test
`count / len(words) > 0.3` is float division in the source; at these
magnitudes the comparison agrees exactly with `10 * count > 3 * len`. -/
def isReasoningText (text : String) : Bool :=
  if text = "" || (pyStrip text).length < 2 then false
  else
    let tl := pyStrip (pyLower text)
    if reasoningIndicators.any (fun ind => strContains tl ind) then true
    else if (pyStrip text).length < 150 &&
        reasoningFragments.any (fun f => strContains tl f) then true
    else if (pyStrip text).length < 50 then
      let words := pySplit tl
      if words.length > 0 then
        decide (10 * (words.filter
          (fun w => reasoningWords.any (fun rw => strContains w rw))).length >
          3 * words.length)
      else false
    else false

/-- The `small_reasoning_fragments` list of `_is_small_reasoning_fragment`. -/
def smallReasoningFragments : List String :=
  ["you search for", "the latest", "use the browser", "click the",
   "search query", "search button", "genai use cases", "samsung phones",
   "galaxy phones", "browser to look", "help me provide",
   "take a screenshot", "better visualize", "comprehensive summary",
   "informative search", "search results", "now let", "let me",
   "i" ++ sq ++ "ll", "try another"]

/-- The `reasoning_keywords` list of `_is_small_reasoning_fragment`. -/
def smallReasoningKeywords : List String :=
  ["search", "click", "browser", "samsung", "galaxy", "genai", "latest",
   "cases"]

/-- `StreamlitHandler._is_small_reasoning_fragment`. -/
def isSmallReasoningFragment (text : String) : Bool :=
  if text = "" || (pyStrip text).length < 3 then false
  else
    let tl := pyStrip (pyLower text)
    if smallReasoningFragments.any (fun f => f == tl || strContains tl f) then true
    else if (pyStrip text).length < 30 then
      decide (2 ≤ (smallReasoningKeywords.filter (fun k => strContains tl k)).length)
    else false

/-! ## StreamlitHandler event processing -/

/-- Python `str()`.  Scalars are rendered faithfully; the container
renderings are opaque placeholders — they are only ever concatenated into
display buffers, never branched on. -/
def pyStr : PyVal → String
  | .str s => s
  | .int n => toString n
  | .float q => toString q
  | .bool b => if b then "True" else "False"
  | .none => "None"
  | .list _ => "<list>"
  | .dict _ => "<dict>"

/-- Dict update with a `PyVal` key (`d[k] = v`). -/
def pvSet (p : List (PyVal × PyVal)) (k v : PyVal) : List (PyVal × PyVal) :=
  if p.any (fun kv => PyVal.beq kv.1 k) then
    p.map (fun kv => if PyVal.beq kv.1 k then (kv.1, v) else kv)
  else p ++ [(k, v)]

/-- Key-set update (`d[k] = <UI container>`, where only the keys matter). -/
def pvSetKey (p : List PyVal) (k : PyVal) : List PyVal :=
  if p.any (fun x => PyVal.beq x k) then p else p ++ [k]

/-- Python `k in v` for a string `k`: key lookup on dicts, substring test
on strings, membership on lists; `Option.none` models the `TypeError` on
non-containers. -/
def pyInStr (k : String) : PyVal → Option Bool
  | .dict dd => some (pyHas dd k)
  | .str s => some (strContains s k)
  | .list l => some (l.any (fun v => PyVal.beq v (.str k)))
  | _ => Option.none

/-- Python `v[k]` for a string `k`: `Option.none` models both `KeyError`
and the `TypeError` on non-dicts. -/
def pyIndexKey (k : String) : PyVal → Option PyVal
  | .dict dd => if pyHas dd k then some (pyGet dd k .none) else Option.none
  | _ => Option.none

/-- `StreamlitHandler` instance state.  Placeholder and timing fields are
display-only except `thinking_placeholder`, whose truthiness is branched
on; `messages_len`, `thinking_history` and `session_thinking_content`
model the session-state entries the handler touches. -/
structure SH where
  message_container : String
  thinking_container : String
  is_thinking : Bool
  tool_containers : List PyVal
  thinking_placeholder : Bool
  thinking_preserved : Bool
  current_reasoning : String
  current_message : String
  delta_buffer : String
  current_tool_calls : List (PyVal × PyVal)
  current_tool_results : List (PyVal × PyVal)
  global_content_buffer : String
  last_displayed_content : String
  tools_in_use : Bool
  suppress_reasoning : Bool
  content_buffer : String
  final_response_started : Bool
  messages_len : Nat
  thinking_history : List (Nat × String)
  session_thinking_content : String
deriving Repr

/-- `current_tool_calls[tid] = tool` for a tool-use payload dict. -/
def addToolCall (h : SH) (tu : PyDict) : SH :=
  { h with
      current_tool_calls :=
        pvSet h.current_tool_calls (pyGet tu "toolUseId" (.str "unknown")) (.dict tu) }

/-- `current_tool_results[tid] = result` for a tool-result payload dict. -/
def addToolResult (h : SH) (tr : PyDict) : SH :=
  { h with
      current_tool_results :=
        pvSet h.current_tool_results (pyGet tr "toolUseId" (.str "unknown")) (.dict tr) }

/-- `_handle_thinking_start`. -/
def shThinkingStart (h : SH) : SH :=
  { h with
      is_thinking := true
      thinking_container := ""
      thinking_placeholder := true }

/-- `_handle_thinking_content`; the raised flag covers the `TypeError` of
`thinking_container += <non-string>` when the dict's `text` entry is not a
string (every other shape goes through `str()`). -/
def shThinkingContent (rt : PyVal) (h : SH) : SH × Bool :=
  let h1 := if h.thinking_container = "" then shThinkingStart h else h
  let tt : Option String :=
    match rt with
    | .dict dd =>
        if pyHas dd "text" then
          match pyGet dd "text" .none with
          | .str t => some t
          | _ => Option.none
        else some (pyStr rt)
    | .str t => some t
    | _ => some (pyStr rt)
  match tt with
  | some t => ({ h1 with thinking_container := h1.thinking_container ++ t }, false)
  | Option.none => (h1, true)

/-- `_preserve_thinking_content`. -/
def shPreserveThinking (h : SH) : SH :=
  if h.thinking_container ≠ "" ∧ h.thinking_preserved = false then
    let h1 := { h with thinking_preserved := true }
    if h1.messages_len > 0 then
      { h1 with thinking_history :=
          h1.thinking_history ++ [(h1.messages_len - 1, h1.thinking_container)] }
    else h1
  else h

/-- `_handle_thinking_end`. -/
def shThinkingEnd (h : SH) : SH :=
  let h1 := { h with is_thinking := false }
  if h1.thinking_container ≠ "" ∧ h1.thinking_placeholder = true then
    shPreserveThinking h1
  else h1

/-- `_handle_thinking`. -/
def shThinking (td : PyVal) (h : SH) : SH :=
  let tt : Option PyVal :=
    match td with
    | .dict dd =>
        if pyHas dd "reasoningContent" then
          match pyGet dd "reasoningContent" .none with
          | .dict rd =>
              if pyHas rd "reasoningText" then
                match pyGet rd "reasoningText" .none with
                | .dict rtd =>
                    if pyHas rtd "text" then some (pyGet rtd "text" .none)
                    else Option.none
                | _ => Option.none
              else Option.none
          | _ => Option.none
        else if pyHas dd "text" then some (pyGet dd "text" .none)
        else Option.none
    | .str s => some (.str s)
    | _ => Option.none
  match tt with
  | some v =>
      if pyTruthy v then
        let tc := h.thinking_container ++ "💭 " ++ pyStr v
        { h with thinking_container := tc, session_thinking_content := tc }
      else h
  | Option.none => h

/-- `_handle_text_streaming`: extract the chunk from the
`content_block_delta` / `data` / `delta` formats and append it to
`message_container` unless thinking or a classifier flags it. -/
def shTextStreaming (kwargs : PyDict) (h : SH) : SH × Bool :=
  let tcR : Option (Option PyVal) :=
    if pyHas kwargs "content_block_delta" then
      let delta := pyGet kwargs "content_block_delta" .none
      match pyInStr "delta" delta with
      | Option.none => Option.none
      | some false => some Option.none
      | some true =>
          match pyIndexKey "delta" delta with
          | Option.none => Option.none
          | some inner =>
              match pyInStr "text" inner with
              | Option.none => Option.none
              | some false => some Option.none
              | some true =>
                  match pyIndexKey "text" inner with
                  | Option.none => Option.none
                  | some t => some (some t)
    else if pyHas kwargs "data" then
      match pyGet kwargs "data" .none with
      | .str t => some (some (.str t))
      | .dict dd =>
          if pyHas dd "delta" then
            match pyGet dd "delta" .none with
            | .dict d2 =>
                if pyHas d2 "text" then some (some (pyGet d2 "text" .none))
                else some Option.none
            | _ => some Option.none
          else some Option.none
      | _ => some Option.none
    else if pyHas kwargs "delta" then
      match pyGet kwargs "delta" .none with
      | .dict d2 =>
          if pyHas d2 "text" then some (some (pyGet d2 "text" .none))
          else some Option.none
      | _ => some Option.none
    else some Option.none
  match tcR with
  | Option.none => (h, true)
  | some Option.none => (h, false)
  | some (some tc) =>
      if pyTruthy tc ∧ h.is_thinking = false then
        match tc with
        | .str t =>
            if isReasoningText t = false ∧ isSmallReasoningFragment t = false then
              ({ h with message_container := h.message_container ++ t }, false)
            else (h, false)
        | _ => (h, true)
      else (h, false)

/-- `_handle_tool_use` (UI rendering; raises `KeyError`/`TypeError` when
`toolUseId` or `name` cannot be indexed). -/
def shToolUse (tu : PyVal) (h : SH) : SH × Bool :=
  match pyIndexKey "toolUseId" tu with
  | Option.none => (h, true)
  | some tid =>
      match pyIndexKey "name" tu with
      | Option.none => (h, true)
      | some _ => ({ h with tool_containers := pvSetKey h.tool_containers tid }, false)

/-- One block of the display loop of `_handle_tool_result`
(`if "text" in content: st.write(content["text"]) / elif "json" in
content: ...(content["json"])`): `true` when the block raises.  A dict
block never raises (`in` is a key test and indexing a present key
succeeds); a string block raises `TypeError` at the string indexing
exactly when the substring test took a branch; a list block raises at the
list indexing exactly when `==`-membership took a branch; `in` itself
raises on any non-container block. -/
def toolResultItemRaises (it : PyVal) : Bool :=
  match it with
  | .dict _ => false
  | .str s => strContains s "text" || strContains s "json"
  | .list l =>
      l.any (fun v => PyVal.beq v (.str "text")) ||
      l.any (fun v => PyVal.beq v (.str "json"))
  | _ => true

/-- `_handle_tool_result` (UI rendering; raises `KeyError` on a missing
`toolUseId` or `status`, and the display loop iterates `content`: over a
list, its blocks; over a dict, its keys (plain strings); over a string,
its single-character substrings, where the four-character needles never
match; `for` over any other value raises `TypeError`). -/
def shToolResult (tr : PyVal) (h : SH) : SH × Bool :=
  match pyIndexKey "toolUseId" tr with
  | Option.none => (h, true)
  | some _ =>
      match pyIndexKey "status" tr with
      | Option.none => (h, true)
      | some _ =>
          let content := match tr with
            | .dict dd => pyGet dd "content" (.list [])
            | _ => .list []
          match content with
          | .list items => (h, items.any toolResultItemRaises)
          | .str _ => (h, false)
          | .dict dd =>
              (h, dd.any (fun kv =>
                strContains kv.1 "text" || strContains kv.1 "json"))
          | _ => (h, true)

/-- `_handle_tool_events`. -/
def shToolEvents (kwargs : PyDict) (h : SH) : SH × Bool :=
  if pyHas kwargs "tool_use" || pyHas kwargs "tool_result" ||
      pyHas kwargs "content_block_start" then
    let r1 :=
      if pyHas kwargs "tool_use" then shToolUse (pyGet kwargs "tool_use" .none) h
      else (h, false)
    if r1.2 then r1
    else if pyHas kwargs "tool_result" then
      shToolResult (pyGet kwargs "tool_result" .none) r1.1
    else r1
  else (h, false)

/-- The block loop of the `message` branch of `__call__`: accumulate the
text of text blocks (outside thinking mode) and record tool use / result
blocks. -/
def shMessageBlocks (isThinking : Bool) :
    List PyVal → String → SH → String × SH × Bool
  | [], ft, h => (ft, h, false)
  | b :: rest, ft, h =>
      match b with
      | .dict bd =>
          if pyHas bd "text" then
            if isThinking then shMessageBlocks isThinking rest ft h
            else
              match pyGet bd "text" .none with
              | .str t => shMessageBlocks isThinking rest (ft ++ t) h
              | _ => (ft, h, true)
          else if pyHas bd "toolUse" then
            match pyGet bd "toolUse" .none with
            | .dict tu => shMessageBlocks isThinking rest ft (addToolCall h tu)
            | _ => (ft, h, true)
          else if pyHas bd "toolResult" then
            match pyGet bd "toolResult" .none with
            | .dict tr => shMessageBlocks isThinking rest ft (addToolResult h tr)
            | _ => (ft, h, true)
          else shMessageBlocks isThinking rest ft h
      | _ => shMessageBlocks isThinking rest ft h

/-- Flush `delta_buffer` through `_filter_reasoning_patterns` into
`message_container` (end of the `message` branch). -/
def shFlushDelta (h : SH) : SH :=
  if h.delta_buffer ≠ "" ∧ h.is_thinking = false then
    let fd := filter_reasoning_patterns h.delta_buffer
    let h1 :=
      if fd ≠ "" then { h with message_container := h.message_container ++ fd }
      else h
    { h1 with delta_buffer := "" }
  else h

/-- The `message` branch of the `__call__` dispatch chain. -/
def shMessageBranch (kwargs : PyDict) (h : SH) : SH × Bool :=
  match pyGet kwargs "message" (.dict []) with
  | .dict md =>
      if pyHas md "content" then
        match pyGet md "content" .none with
        | .list blocks =>
            match shMessageBlocks h.is_thinking blocks "" h with
            | (ft, h1, true) =>
                let _ := ft
                (h1, true)
            | (ft, h1, false) =>
                let h2 :=
                  if ft ≠ "" ∧ h1.is_thinking = false then
                    let ftf := filter_reasoning_patterns ft
                    if ftf ≠ "" then
                      { h1 with message_container := h1.message_container ++ ftf }
                    else h1
                  else h1
                (shFlushDelta h2, false)
        | _ => (shFlushDelta h, false)
      else (h, false)
  | _ => (h, false)

/-- The content-block loop of the `event` branch. -/
def shContentItems : List PyVal → SH → SH × Bool
  | [], h => (h, false)
  | it :: rest, h =>
      match it with
      | .dict bd =>
          if pyHas bd "toolUse" then
            match pyGet bd "toolUse" .none with
            | .dict tu => shContentItems rest (addToolCall h tu)
            | _ => (h, true)
          else if pyHas bd "toolResult" then
            match pyGet bd "toolResult" .none with
            | .dict tr => shContentItems rest (addToolResult h tr)
            | _ => (h, true)
          else shContentItems rest h
      | _ => shContentItems rest h

/-- The `event` branch of the `__call__` dispatch chain. -/
def shEventBranch (kwargs : PyDict) (h : SH) : SH × Bool :=
  if pyHas kwargs "current_tool_use" then
    match pyGet kwargs "current_tool_use" .none with
    | .dict tu => (addToolCall h tu, false)
    | _ => (h, true)
  else if pyHas kwargs "content" then
    match pyGet kwargs "content" .none with
    | .list items => shContentItems items h
    | _ => (h, false)
  else (h, false)

/-- `event_type = next((k for k in kwargs if k not in ["data",
"content_block_delta"]), None)`. -/
def firstEventKey (kwargs : PyDict) : Option String :=
  (kwargs.find? (fun kv => kv.1 ≠ "data" && kv.1 ≠ "content_block_delta")).map
    (fun kv => kv.1)

/-- `StreamlitHandler.__call__`: the dispatch chain followed by the shared
post-chain processing (`_handle_text_streaming`, `_handle_tool_events`,
thinking preservation).  The second component records whether an
uncaught exception escaped, with the state at the raise point. -/
def shCall (kwargs : PyDict) (h : SH) : SH × Bool :=
  let et := firstEventKey kwargs
  if pyHas kwargs "init_event_loop" then
    let h1 : SH :=
      { h with
          current_reasoning := ""
          current_message := ""
          delta_buffer := ""
          current_tool_calls := []
          current_tool_results := []
          message_container := ""
          thinking_container := ""
          is_thinking := false
          thinking_placeholder := false
          thinking_preserved := false }
    (h1, false)
  else if et = some "reasoningText" then
    let rt0 := pyGet kwargs "reasoningText" (.str "")
    let rt1 :=
      match rt0 with
      | .dict dd => if pyHas dd "text" then pyGet dd "text" .none else .dict dd
      | other => other
    shThinkingContent rt1
      { h with current_reasoning := h.current_reasoning ++ pyStr rt1 }
  else if et = some "reasoning_signature" then
    if h.current_reasoning ≠ "" then
      (shThinkingEnd { h with current_reasoning := "" }, false)
    else (h, false)
  else
    let step1 : SH × Bool :=
      if et = some "delta" then
        match pyGet kwargs "delta" (.dict []) with
        | .dict dd =>
            let dc := pyGet dd "text" (.str "")
            if pyTruthy dc = false then (h, false)
            else if h.is_thinking = true then (h, false)
            else if h.tools_in_use = true then (h, false)
            else
              match dc with
              | .str t =>
                  if isReasoningText t = false ∧ isSmallReasoningFragment t = false then
                    ({ h with delta_buffer := h.delta_buffer ++ t }, false)
                  else (h, false)
              | _ => (h, true)
        | _ => (h, true)
      else if et = some "message" then shMessageBranch kwargs h
      else if pyHas kwargs "tool_use" then
        match pyGet kwargs "tool_use" .none with
        | .dict dd =>
            let h1 : SH :=
              { addToolCall h dd with
                  tools_in_use := true
                  message_container := ""
                  delta_buffer := "" }
            (h1, false)
        | _ => (h, true)
      else if pyHas kwargs "tool_result" then
        match pyGet kwargs "tool_result" .none with
        | .dict dd =>
            let h1 := addToolResult h dd
            let h2 :=
              if h1.current_tool_results.length ≥ h1.current_tool_calls.length then
                { h1 with tools_in_use := false }
              else h1
            (h2, false)
        | _ => (h, true)
      else if et = some "event" then shEventBranch kwargs h
      else (h, false)
    if step1.2 then step1
    else
      let h2 := step1.1
      if pyHas kwargs "reasoningText" then
        shThinkingContent (pyGet kwargs "reasoningText" .none) h2
      else if pyHas kwargs "reasoning_signature" then (shThinkingEnd h2, false)
      else if pyHas kwargs "thinking_start" then (shThinkingStart h2, false)
      else if pyHas kwargs "thinking" then
        (shThinking (pyGet kwargs "thinking" .none) h2, false)
      else if pyHas kwargs "thinking_end" then (shThinkingEnd h2, false)
      else
        let r3 := shTextStreaming kwargs h2
        if r3.2 then r3
        else
          let r4 := shToolEvents kwargs r3.1
          if r4.2 then r4
          else if pyHas kwargs "message" ∧ r4.1.thinking_preserved = false then
            (shPreserveThinking r4.1, false)
          else r4

/-! ## Clean response handler (`handlers/clean_response_handler.py`) -/

/-- `CleanResponseHandler` instance state (placeholder and timing fields are
display-only; `thinking_placeholder` records whether the placeholder has
been created). -/
structure CRH where
  final_response : String
  thinking_content : String
  thinking_placeholder : Bool
  tools_active : Bool
  reasoning_active : Bool
  response_started : Bool
deriving Repr

/-- Concatenate the `text` fields of the dict blocks of a message content
list (`text_content += block["text"]`); `Option.none` models the
`TypeError` raised when a block's `text` value is not a string. -/
def concatTextBlocks (blocks : List PyVal) : Option String :=
  blocks.foldl
    (fun acc b =>
      match acc with
      | Option.none => Option.none
      | some s =>
          match b with
          | .dict bd =>
              if pyHas bd "text" then
                match pyGet bd "text" .none with
                | .str t => some (s ++ t)
                | _ => Option.none
              else some s
          | _ => some s)
    (some "")

/-- `CleanResponseHandler._extract_clean_text`: falsy messages yield `""`
at once; a dict with a list `content` concatenates its dict blocks' `text`
fields; a string message is taken whole; anything else yields `""`; the
collected text then passes through `_filter_reasoning_content`. -/
def extract_clean_text (m : PyVal) : Option String :=
  if pyTruthy m = false then some ""
  else
    let text_content : Option String :=
      match m with
      | .dict dd =>
          if pyHas dd "content" then
            match pyGet dd "content" .none with
            | .list blocks => concatTextBlocks blocks
            | _ => some ""
          else some ""
      | .str t => some t
      | _ => some ""
    text_content.map filterReasoningContent

/-- `CleanResponseHandler._handle_final_message`: clear the tool and
reasoning flags, extract the clean text, and update `final_response` only
when that text is non-empty.  The returned flag records whether the
extraction raised (after the flags were already cleared). -/
def handleFinalMessage (m : PyVal) (h : CRH) : CRH × Bool :=
  let h1 := { h with tools_active := false, reasoning_active := false }
  match extract_clean_text m with
  | Option.none => (h1, true)
  | some t =>
      if t ≠ "" then ({ h1 with final_response := t }, false)
      else (h1, false)

/-! ## Config loader (`utils/config_loader.py`) -/

/-- The file-system behaviour visible to the loaders: `os.path.exists`, and
the combined open/read/`json.load` step, with `Option.none` standing for any
exception raised while opening, reading or parsing. -/
structure FileSystem where
  pathExists : String → Bool
  readParse : String → Option PyVal

/-- The `possible_paths` search list of `load_config`; `moduleDir` abstracts
`os.path.dirname(__file__)`. -/
def configPossiblePaths (moduleDir : String) : List String :=
  ["config_with_thinking.json", "config/config_with_thinking.json",
   moduleDir ++ "/../../../config/config_with_thinking.json"]

/-- The `possible_paths` search list of `load_mcp_config`. -/
def mcpPossiblePaths (moduleDir : String) : List String :=
  ["mcp_config.json", "config/mcp_config.json",
   moduleDir ++ "/../../../config/mcp_config.json"]

/-- Path resolution shared by both loaders: a falsy `config_path` (absent or
empty) is replaced by the first existing candidate, and remains unset when
none exists. -/
def resolvePath (fs : FileSystem) (paths : List String) :
    Option String → Option String
  | some p => if p = "" then paths.find? fs.pathExists else some p
  | Option.none => paths.find? fs.pathExists

/-- The built-in default configuration returned by `load_config` when no
file can be read and parsed. -/
def defaultConfig : PyVal :=
  .dict
    [("model", .dict
        [("provider", .str "bedrock"),
         ("model_id", .str "us.anthropic.claude-3-7-sonnet-20250219-v1:0"),
         ("region", .str "us-east-1"),
         ("max_tokens", .int 24000)]),
     ("agent", .dict
        [("system_prompt", .str "You are a helpful assistant that provides concise, accurate information."),
         ("max_parallel_tools", .int 4),
         ("record_direct_tool_call", .bool true),
         ("hot_reload_tools", .bool true),
         ("enable_native_thinking", .bool true),
         ("thinking_budget", .int 16000)]),
     ("conversation", .dict
        [("window_size", .int 20),
         ("summarize_overflow", .bool true)]),
     ("ui", .dict
        [("update_interval", .float (1 / 10))])]

/-- The default MCP configuration returned by `load_mcp_config`. -/
def defaultMcpConfig : PyVal := .dict [("mcpServers", .dict [])]

/-- `load_config`: resolve the path, then `try` to read and parse it; any
failure (missing path, unreadable file, bad JSON) falls through to the
built-in default. -/
def load_config (fs : FileSystem) (moduleDir : String)
    (config_path : Option String) : PyVal :=
  match resolvePath fs (configPossiblePaths moduleDir) config_path with
  | some p =>
      if fs.pathExists p then
        match fs.readParse p with
        | some v => v
        | Option.none => defaultConfig
      else defaultConfig
  | Option.none => defaultConfig

/-- `load_mcp_config`: same structure with its own search list and default. -/
def load_mcp_config (fs : FileSystem) (moduleDir : String)
    (config_path : Option String) : PyVal :=
  match resolvePath fs (mcpPossiblePaths moduleDir) config_path with
  | some p =>
      if fs.pathExists p then
        match fs.readParse p with
        | some v => v
        | Option.none => defaultMcpConfig
      else defaultMcpConfig
  | Option.none => defaultMcpConfig

/-! ## Composite callback handler (`handlers/enhanced_streamlit_handler.py`) -/

/-- A chained handler: either a callable whose invocation transforms some
handler-and-UI state `σ` and reports whether it raised, or a non-callable
entry (which the composite only warns about). -/
inductive Handler (σ : Type) where
  | callable (f : PyDict → σ → σ × Bool)
  | notCallable

/-- One iteration of the composite loop: call the handler inside the `try`
(reporting its raised flag, which the `except` swallows), or warn and skip a
non-callable entry. -/
def runHandler (h : Handler σ) (ev : PyDict) (s : σ) : σ × Bool :=
  match h with
  | .callable f => f ev s
  | .notCallable => (s, false)

/-- `CompositeCallbackHandler.__call__`: run every handler in list order,
catching any exception (`except Exception: ... continue`), and record one
outcome flag per handler. -/
def compositeCall (hs : List (Handler σ)) (ev : PyDict) (s : σ) : σ × List Bool :=
  match hs with
  | [] => (s, [])
  | h :: rest =>
      let r := runHandler h ev s
      let q := compositeCall rest ev r.1
      (q.1, r.2 :: q.2)

/-! ## Example values used by witnesses -/

/-- A captured tool-use action, as `capture_tool_use` would append it. -/
def exAction : ActionEvent :=
  { id := "action_0_1_2", turn := 0, timestamp := 2, action_type := "tool_use",
    tool_name := .str "calculator", tool_source := "strands_sdk",
    tool_use_id := .str "t1", input_data := .dict [("expression", .str "1+1")] }

/-- A capture state holding `exAction` as a still-pending tool use. -/
def exCapture : Capture :=
  { actions := [exAction], current_turn := 0,
    pending_tool_uses := [(.str "t1", 0)], current_reasoning := "",
    reasoning_start_time := Option.none, action_counter := 1 }

/-- The capture state of a freshly constructed instance over an empty session. -/
def freshCapture : Capture :=
  { actions := [], current_turn := 0, pending_tool_uses := [],
    current_reasoning := "", reasoning_start_time := Option.none,
    action_counter := 0 }

/-- A session store in its initialized state. -/
def freshSession : Session :=
  { action_history := [], current_turn := 0, action_capture := freshCapture,
    show_action_history := true, action_history_expanded := false,
    conversation_id := "conv_0", last_cleanup_time := 0,
    action_capture_initialized := true, messages := [],
    thinking_history := [], thinking_content := "" }

/-- A session store synchronized with `exCapture`. -/
def exSession : Session :=
  { freshSession with action_history := [exAction], action_capture := exCapture }

/-- A tool-result payload matching the pending tool use of `exCapture`. -/
def exToolResult : PyDict :=
  [("toolUseId", .str "t1"), ("status", .str "success"),
   ("content", .list [.dict [("text", .str "2")]])]

/-- A tool-result payload whose `toolUseId` is a dict, hence unhashable. -/
def exUnhashableResult : PyDict :=
  [("toolUseId", .dict [("bad", .int 1)]), ("status", .str "success"),
   ("content", .list [])]

/-- A tool-use payload as delivered by a `current_tool_use` callback. -/
def exToolUse : PyDict :=
  [("toolUseId", .str "t1"), ("name", .str "calculator"),
   ("input", .dict [("expression", .str "1+1")])]

/-- A file system where exactly the file `config_with_thinking.json` exists
and parses to a small dict. -/
def exFS : FileSystem :=
  { pathExists := fun p => p = "config_with_thinking.json",
    readParse := fun p =>
      if p = "config_with_thinking.json" then some (.dict [("model", .dict [])])
      else Option.none }

/-- The `StreamlitHandler.__init__` state over a fresh session. -/
def sh0 : SH :=
  { message_container := "", thinking_container := "", is_thinking := false,
    tool_containers := [], thinking_placeholder := false,
    thinking_preserved := false, current_reasoning := "",
    current_message := "", delta_buffer := "", current_tool_calls := [],
    current_tool_results := [], global_content_buffer := "",
    last_displayed_content := "", tools_in_use := false,
    suppress_reasoning := true, content_buffer := "",
    final_response_started := false, messages_len := 0,
    thinking_history := [], session_thinking_content := "" }

/-- A direct `tool_use` event, which sets `tools_in_use`. -/
def exToolUseEvent : PyDict :=
  [("tool_use", .dict [("toolUseId", .str "t1"), ("name", .str "browser")])]

/-- A streamed chunk that neither classifier flags as reasoning. -/
def exChunk : String :=
  "The report covers recent developments across multiple areas."

/-- A `data` streaming event carrying `exChunk`. -/
def exDataEvent : PyDict := [("data", .str exChunk)]

/-- Content blocks of a final agent message: a text block, a tool-use
block, and a malformed block. -/
def exBlocks : List PyVal :=
  [.dict [("text", .str "The answer is 42.")],
   .dict [("toolUse", .dict [("toolUseId", .str "t1")])],
   .int 3]

/-- A final `message` payload carrying `exBlocks`. -/
def exMessageDict : PyDict := [("content", .list exBlocks)]

/-- A `CleanResponseHandler` state mid-response. -/
def crh0 : CRH :=
  { final_response := "", thinking_content := "", thinking_placeholder := false,
    tools_active := true, reasoning_active := true, response_started := false }

/-- An uninterrupted two-chunk reasoning sequence with clock readings. -/
def exReasoningSeq : List (Nat × PyVal) :=
  [(0, .str "Let me think "), (1, .dict [("text", .str "about it")])]

/-- A reasoning payload whose `text` entry is truthy but not a string: the
source appends the reasoning action and then raises `TypeError` on
`current_reasoning += reasoning_text` before syncing the session. -/
def exBadReasoning : PyVal := .dict [("text", .dict [("a", .int 1)])]

/-! ## List helper lemmas -/

theorem listModify_length (l : List α) (i : Nat) (f : α → α) :
    (listModify l i f).length = l.length := by
  induction l generalizing i with
  | nil => rfl
  | cons a rest ih =>
      cases i with
      | zero => simp [listModify]
      | succ j => simp [listModify, ih]

theorem listModify_getElem?_ne (l : List α) (i : Nat) (f : α → α) (j : Nat)
    (h : j ≠ i) : (listModify l i f)[j]? = l[j]? := by
  induction l generalizing i j with
  | nil => rfl
  | cons a rest ih =>
      cases i with
      | zero =>
          cases j with
          | zero => exact absurd rfl h
          | succ j' => simp [listModify]
      | succ i' =>
          cases j with
          | zero => simp [listModify]
          | succ j' =>
              simp only [listModify, List.getElem?_cons_succ]
              exact ih i' j' (fun hh => h (by simp [hh]))

theorem listModify_getElem?_self (l : List α) (i : Nat) (f : α → α) :
    (listModify l i f)[i]? = (l[i]?).map f := by
  induction l generalizing i with
  | nil => rfl
  | cons a rest ih =>
      cases i with
      | zero => simp [listModify]
      | succ i' => simp [listModify, ih]

theorem mem_listModify (l : List α) (i : Nat) (f : α → α) (a : α)
    (h : a ∈ listModify l i f) : a ∈ l ∨ ∃ b ∈ l, a = f b := by
  induction l generalizing i with
  | nil => simp [listModify] at h
  | cons x rest ih =>
      cases i with
      | zero =>
          simp only [listModify, List.mem_cons] at h
          rcases h with h | h
          · exact Or.inr ⟨x, List.mem_cons_self x rest, h⟩
          · exact Or.inl (List.mem_cons_of_mem x h)
      | succ i' =>
          simp only [listModify, List.mem_cons] at h
          rcases h with h | h
          · exact Or.inl (h ▸ List.mem_cons_self x rest)
          · rcases ih i' h with h' | ⟨b, hb, hab⟩
            · exact Or.inl (List.mem_cons_of_mem x h')
            · exact Or.inr ⟨b, List.mem_cons_of_mem x hb, hab⟩

theorem updLast_append_singleton (p : α → Bool) (f : α → α) (l : List α) (a : α)
    (h : p a = true) : updLast p f (l ++ [a]) = l ++ [f a] := by
  induction l with
  | nil => simp [updLast, h]
  | cons x rest ih => simp [updLast, List.any_append, h, ih]

theorem mem_updLast (p : α → Bool) (f : α → α) (l : List α) (a : α)
    (h : a ∈ updLast p f l) : a ∈ l ∨ ∃ b ∈ l, p b = true ∧ a = f b := by
  induction l with
  | nil => simp [updLast] at h
  | cons x rest ih =>
      simp only [updLast] at h
      split at h
      · rcases List.mem_cons.mp h with h | h
        · exact Or.inl (h ▸ List.mem_cons_self x rest)
        · rcases ih h with h' | ⟨b, hb, hpb, hab⟩
          · exact Or.inl (List.mem_cons_of_mem x h')
          · exact Or.inr ⟨b, List.mem_cons_of_mem x hb, hpb, hab⟩
      · split at h
        next hpx =>
          rcases List.mem_cons.mp h with h | h
          · exact Or.inr ⟨x, List.mem_cons_self x rest, hpx, h⟩
          · exact Or.inl (List.mem_cons_of_mem x h)
        next hpx =>
          rcases List.mem_cons.mp h with h | h
          · exact Or.inl (h ▸ List.mem_cons_self x rest)
          · exact Or.inl (List.mem_cons_of_mem x h)

/-! ## Claim theorems -/

/-- C2 (amended): when the extracted toolUseId is hashable, a tool result
whose toolUseId matches a still-pending tool use (Python `==` key matching)
updates that pending tool-use action in place — same number of actions, all
other entries untouched, and the matched entry gains the result's status,
an `output_data` of the result's status and content, and a duration — and
one matching no pending tool use appends exactly one standalone
`tool_result` action carrying the result's status and content; but an
unhashable (dict or list) toolUseId raises `TypeError` at the pending-map
membership test, swallowed by the method's `except`, so nothing is
appended and instance and session are left unchanged. -/
theorem claim_C2 (now : Nat) (dd : PyDict) (c : Capture) (ses : Session) :
    (∀ idx, hashable (pyGet dd "toolUseId" (.str "unknown")) = true →
      pendFind c.pending_tool_uses (pyGet dd "toolUseId" (.str "unknown")) = some idx →
      (captureToolResult now (.dict dd) c ses).1.actions.length = c.actions.length ∧
      (∀ j, j ≠ idx →
        ((captureToolResult now (.dict dd) c ses).1.actions)[j]? = c.actions[j]?) ∧
      (∀ a, c.actions[idx]? = some a →
        ((captureToolResult now (.dict dd) c ses).1.actions)[idx]? = some
          { a with
            output_data := .dict [("status", pyGet dd "status" (.str "unknown")),
                                  ("content", pyGet dd "content" (.list []))],
            status := pyGet dd "status" (.str "unknown"),
            duration := some (now - a.timestamp) })) ∧
    (hashable (pyGet dd "toolUseId" (.str "unknown")) = true →
      pendFind c.pending_tool_uses (pyGet dd "toolUseId" (.str "unknown")) = Option.none →
      ∃ a, (captureToolResult now (.dict dd) c ses).1.actions = c.actions ++ [a] ∧
        a.action_type = "tool_result" ∧
        a.tool_use_id = pyGet dd "toolUseId" (.str "unknown") ∧
        a.status = pyGet dd "status" (.str "unknown") ∧
        a.output_data = .dict [("status", pyGet dd "status" (.str "unknown")),
                               ("content", pyGet dd "content" (.list []))]) ∧
    (hashable (pyGet dd "toolUseId" (.str "unknown")) = false →
      captureToolResult now (.dict dd) c ses = (c, ses)) := by
  refine ⟨?_, ?_, ?_⟩
  · intro idx hh hidx
    simp only [captureToolResult, hh, if_true, hidx]
    refine ⟨listModify_length _ _ _, ?_, ?_⟩
    · intro j hj
      exact listModify_getElem?_ne _ _ _ _ hj
    · intro a ha
      rw [listModify_getElem?_self, ha]
      rfl
  · intro hh hnone
    simp only [captureToolResult, hh, if_true, hnone]
    exact ⟨_, rfl, rfl, rfl, rfl, rfl⟩
  · intro hh
    simp [captureToolResult, hh]

/-- Counterexample for C2 as stated: a tool result whose `toolUseId` is an
unhashable dict matches no pending tool use (the pending map here is
empty), yet `capture_tool_result` appends no standalone action: the
`tool_use_id in self.pending_tool_uses` membership test raises
`TypeError`, swallowed by the method's `except` before anything changed. -/
theorem claim_C2_counterexample :
    pendFind freshCapture.pending_tool_uses
      (pyGet exUnhashableResult "toolUseId" (.str "unknown")) = Option.none ∧
    (captureToolResult 7 (.dict exUnhashableResult) freshCapture freshSession).1.actions =
      freshCapture.actions ∧
    captureToolResult 7 (.dict exUnhashableResult) freshCapture freshSession =
      (freshCapture, freshSession) :=
  ⟨rfl, rfl, rfl⟩

/-- Witness for C2 at a concrete pending tool use and matching result. -/
theorem claim_C2_witness :
    hashable (pyGet exToolResult "toolUseId" (.str "unknown")) = true ∧
    pendFind exCapture.pending_tool_uses (pyGet exToolResult "toolUseId" (.str "unknown")) = some 0 ∧
    (captureToolResult 7 (.dict exToolResult) exCapture exSession).1.actions.length =
      exCapture.actions.length := by
  have hh : hashable (pyGet exToolResult "toolUseId" (.str "unknown")) = true := by
    decide
  have h : pendFind exCapture.pending_tool_uses
      (pyGet exToolResult "toolUseId" (.str "unknown")) = some 0 := by
    decide
  exact ⟨hh, h, ((claim_C2 7 exToolResult exCapture exSession).1 0 hh h).1⟩

/-- C3: every action appended by a capture operation is stamped with the
instance's `current_turn` at the moment of capture (in-place updates keep
the turn the action was stamped with), and `get_actions_for_turn t` returns
exactly the captured actions whose turn equals `t`, in capture order. -/
theorem claim_C3 (now : Nat) (d : PyVal) (c : Capture) (ses : Session) (t : Nat) :
    (∀ a ∈ (captureToolUse now d c ses).1.actions,
        a ∈ c.actions ∨ a.turn = c.current_turn) ∧
    (∀ a ∈ (captureToolResult now d c ses).1.actions,
        a ∈ c.actions ∨ a.turn = c.current_turn ∨ ∃ b ∈ c.actions, a.turn = b.turn) ∧
    (∀ a ∈ (captureReasoning now d c ses).1.actions,
        a ∈ c.actions ∨ a.turn = c.current_turn ∨ ∃ b ∈ c.actions, a.turn = b.turn) ∧
    (getActionsForTurn c t).Sublist c.actions ∧
    (∀ a, a ∈ getActionsForTurn c t ↔ a ∈ c.actions ∧ a.turn = t) := by
  refine ⟨?_, ?_, ?_, ?_, ?_⟩
  · intro a ha
    rcases d with s | n | q | b | _ | l | dd
    case str => exact Or.inl ha
    case int => exact Or.inl ha
    case float => exact Or.inl ha
    case bool => exact Or.inl ha
    case none => exact Or.inl ha
    case list => exact Or.inl ha
    case dict =>
      simp only [captureToolUse] at ha
      cases hsrc : determineToolSource (pyGet dd "name" (.str "unknown")) with
      | none => rw [hsrc] at ha; exact Or.inl ha
      | some src =>
          rw [hsrc] at ha
          rcases hh : hashable (pyGet dd "toolUseId" (.str "unknown")) with _ | _
          · simp only [hh, Bool.false_eq_true, if_false] at ha
            exact Or.inl ha
          · simp only [hh, if_true, List.mem_append, List.mem_singleton] at ha
            rcases ha with ha | ha
            · exact Or.inl ha
            · exact Or.inr (by rw [ha])
  · intro a ha
    rcases d with s | n | q | b | _ | l | dd
    case str => exact Or.inl ha
    case int => exact Or.inl ha
    case float => exact Or.inl ha
    case bool => exact Or.inl ha
    case none => exact Or.inl ha
    case list => exact Or.inl ha
    case dict =>
      simp only [captureToolResult] at ha
      rcases hh : hashable (pyGet dd "toolUseId" (.str "unknown")) with _ | _
      · simp only [hh, Bool.false_eq_true, if_false] at ha
        exact Or.inl ha
      · simp only [hh, if_true] at ha
        cases hp : pendFind c.pending_tool_uses (pyGet dd "toolUseId" (.str "unknown")) with
        | none =>
            rw [hp] at ha
            simp only [List.mem_append, List.mem_singleton] at ha
            rcases ha with ha | ha
            · exact Or.inl ha
            · exact Or.inr (Or.inl (by rw [ha]))
        | some idx =>
            rw [hp] at ha
            rcases mem_listModify _ _ _ _ ha with h | ⟨b, hb, hab⟩
            · exact Or.inl h
            · exact Or.inr (Or.inr ⟨b, hb, by rw [hab]⟩)
  · intro a ha
    simp only [captureReasoning] at ha
    split at ha
    · split at ha
      · split at ha
        · rcases mem_updLast _ _ _ _ ha with h | ⟨b, hb, _, hab⟩
          · simp only [List.mem_append, List.mem_singleton] at h
            rcases h with h | h
            · exact Or.inl h
            · exact Or.inr (Or.inl (by rw [h]))
          · simp only [List.mem_append, List.mem_singleton] at hb
            rcases hb with hb | hb
            · exact Or.inr (Or.inr ⟨b, hb, by rw [hab]⟩)
            · exact Or.inr (Or.inl (by rw [hab, hb]))
        · rcases mem_updLast _ _ _ _ ha with h | ⟨b, hb, _, hab⟩
          · exact Or.inl h
          · exact Or.inr (Or.inr ⟨b, hb, by rw [hab]⟩)
      all_goals (
        split at ha
        · simp only [List.mem_append, List.mem_singleton] at ha
          rcases ha with ha | ha
          · exact Or.inl ha
          · exact Or.inr (Or.inl (by rw [ha]))
        · exact Or.inl ha)
    · exact Or.inl ha
  · exact List.filter_sublist c.actions
  · intro a
    simp [getActionsForTurn, List.mem_filter]

/-- Witness for C3: a concretely captured tool use is stamped with the
current turn. -/
theorem claim_C3_witness :
    exAction ∈ (captureToolUse 2 (.dict exToolUse) freshCapture freshSession).1.actions ∧
    (exAction ∈ freshCapture.actions ∨ exAction.turn = freshCapture.current_turn) := by
  have hacts : (captureToolUse 2 (.dict exToolUse) freshCapture freshSession).1.actions
      = [exAction] := rfl
  have hmem : exAction ∈ (captureToolUse 2 (.dict exToolUse) freshCapture freshSession).1.actions := by
    rw [hacts]; exact List.mem_singleton.mpr rfl
  exact ⟨hmem, (claim_C3 2 (.dict exToolUse) freshCapture freshSession 0).1 exAction hmem⟩

/-- C4 (amended): `start_new_turn` and `clear_history` always re-establish
the session synchronisation; `capture_tool_use` and `capture_tool_result`
re-establish it whenever they change the actions list or turn counter and
preserve it otherwise; `capture_reasoning` re-establishes it whenever the
extracted reasoning value is a non-empty string and is a no-op on a falsy
value — but (see the counterexample) a truthy non-string reasoning value
makes `capture_reasoning` append an action and abort before the sync. -/
theorem claim_C4 (now : Nat) (d : PyVal) (c : Capture) (ses : Session) :
    (synced c ses →
      synced (captureToolUse now d c ses).1 (captureToolUse now d c ses).2) ∧
    ((captureToolUse now d c ses).1.actions ≠ c.actions ∨
      (captureToolUse now d c ses).1.current_turn ≠ c.current_turn →
      synced (captureToolUse now d c ses).1 (captureToolUse now d c ses).2) ∧
    (synced c ses →
      synced (captureToolResult now d c ses).1 (captureToolResult now d c ses).2) ∧
    ((captureToolResult now d c ses).1.actions ≠ c.actions ∨
      (captureToolResult now d c ses).1.current_turn ≠ c.current_turn →
      synced (captureToolResult now d c ses).1 (captureToolResult now d c ses).2) ∧
    synced (startNewTurn c ses).1 (startNewTurn c ses).2 ∧
    synced (clearHistory c ses).1 (clearHistory c ses).2 ∧
    ((∃ t, extractReasoningText d = .str t ∧ t ≠ "") →
      synced (captureReasoning now d c ses).1 (captureReasoning now d c ses).2) ∧
    (pyTruthy (extractReasoningText d) = false →
      captureReasoning now d c ses = (c, ses)) := by
  refine ⟨?_, ?_, ?_, ?_, ⟨rfl, rfl⟩, ⟨rfl, rfl⟩, ?_, ?_⟩
  · intro hs
    rcases d with s | n | q | b | _ | l | dd
    case str => exact hs
    case int => exact hs
    case float => exact hs
    case bool => exact hs
    case none => exact hs
    case list => exact hs
    case dict =>
      simp only [captureToolUse]
      cases hsrc : determineToolSource (pyGet dd "name" (.str "unknown")) with
      | none => exact hs
      | some src =>
          rcases hh : hashable (pyGet dd "toolUseId" (.str "unknown")) with _ | _
          · simp only [hh, Bool.false_eq_true, if_false]
            exact hs
          · simp only [hh, if_true]
            exact ⟨rfl, rfl⟩
  · intro hc
    rcases d with s | n | q | b | _ | l | dd
    case str => rcases hc with h | h <;> exact absurd rfl h
    case int => rcases hc with h | h <;> exact absurd rfl h
    case float => rcases hc with h | h <;> exact absurd rfl h
    case bool => rcases hc with h | h <;> exact absurd rfl h
    case none => rcases hc with h | h <;> exact absurd rfl h
    case list => rcases hc with h | h <;> exact absurd rfl h
    case dict =>
      simp only [captureToolUse] at hc ⊢
      cases hsrc : determineToolSource (pyGet dd "name" (.str "unknown")) with
      | none => rw [hsrc] at hc; rcases hc with h | h <;> exact absurd rfl h
      | some src =>
          rw [hsrc] at hc
          rcases hh : hashable (pyGet dd "toolUseId" (.str "unknown")) with _ | _
          · simp only [hh, Bool.false_eq_true, if_false] at hc
            rcases hc with h | h <;> exact absurd rfl h
          · simp only [hh, if_true]
            exact ⟨rfl, rfl⟩
  · intro hs
    rcases d with s | n | q | b | _ | l | dd
    case str => exact hs
    case int => exact hs
    case float => exact hs
    case bool => exact hs
    case none => exact hs
    case list => exact hs
    case dict =>
      simp only [captureToolResult]
      rcases hh : hashable (pyGet dd "toolUseId" (.str "unknown")) with _ | _
      · simp only [hh, Bool.false_eq_true, if_false]
        exact hs
      · simp only [hh, if_true]
        cases hp : pendFind c.pending_tool_uses (pyGet dd "toolUseId" (.str "unknown")) with
        | none => exact ⟨rfl, rfl⟩
        | some idx => exact ⟨rfl, rfl⟩
  · intro hc
    rcases d with s | n | q | b | _ | l | dd
    case str => rcases hc with h | h <;> exact absurd rfl h
    case int => rcases hc with h | h <;> exact absurd rfl h
    case float => rcases hc with h | h <;> exact absurd rfl h
    case bool => rcases hc with h | h <;> exact absurd rfl h
    case none => rcases hc with h | h <;> exact absurd rfl h
    case list => rcases hc with h | h <;> exact absurd rfl h
    case dict =>
      simp only [captureToolResult] at hc ⊢
      rcases hh : hashable (pyGet dd "toolUseId" (.str "unknown")) with _ | _
      · simp only [hh, Bool.false_eq_true, if_false] at hc
        rcases hc with h | h <;> exact absurd rfl h
      · simp only [hh, if_true]
        cases hp : pendFind c.pending_tool_uses (pyGet dd "toolUseId" (.str "unknown")) with
        | none => exact ⟨rfl, rfl⟩
        | some idx => exact ⟨rfl, rfl⟩
  · rintro ⟨t, ht, htne⟩
    simp only [captureReasoning, ht]
    have : pyTruthy (.str t) = true := by simp [pyTruthy, htne]
    rw [this]
    simp only [if_true]
    split
    · exact ⟨rfl, rfl⟩
    · exact ⟨rfl, rfl⟩
  · intro hf
    simp only [captureReasoning, hf]
    rfl

/-- Counterexample for C4: on a truthy non-string reasoning payload,
`capture_reasoning` appends an action (a state change) but the `TypeError`
raised on `current_reasoning += ...` aborts the method before the session
sync, leaving the store out of step with the instance. -/
theorem claim_C4_counterexample :
    (captureReasoning 5 exBadReasoning freshCapture freshSession).2.action_history ≠
      (captureReasoning 5 exBadReasoning freshCapture freshSession).1.actions ∧
    (captureReasoning 5 exBadReasoning freshCapture freshSession).1.actions ≠
      freshCapture.actions := by
  constructor <;>
    simp [captureReasoning, extractReasoningText, pyTruthy, pyHas, pyGet,
      freshCapture, freshSession, exBadReasoning]

/-- Witness for C4 at a concrete string reasoning chunk. -/
theorem claim_C4_witness :
    (∃ t, extractReasoningText (.str "I am thinking") = PyVal.str t ∧ t ≠ "") ∧
    synced (captureReasoning 3 (.str "I am thinking") exCapture exSession).1
      (captureReasoning 3 (.str "I am thinking") exCapture exSession).2 :=
  ⟨⟨"I am thinking", rfl, by decide⟩,
   (claim_C4 3 (.str "I am thinking") exCapture exSession).2.2.2.2.2.2.1
     ⟨"I am thinking", rfl, by decide⟩⟩

theorem string_append_ne_left (s t : String) (h : s ≠ "") : s ++ t ≠ "" := by
  intro he
  apply h
  apply String.ext
  have hd : s.data ++ t.data = [] := by
    have := congrArg String.data he
    simpa [String.data_append] using this
  have := (List.append_eq_nil.mp hd).1
  simpa using this

theorem pyValSetKey_single (k : String) (v x : PyVal) :
    pyValSetKey (.dict [(k, v)]) k x = .dict [(k, x)] := by
  simp [pyValSetKey, pySet, pyHas]

/-- First chunk of a reasoning sequence: `capture_reasoning` on an empty
`current_reasoning` appends one reasoning action and immediately updates it
through the reversed-scan loop. -/
theorem captureReasoning_first (now : Nat) (d : PyVal) (c : Capture) (ses : Session)
    (t : String) (ht : extractReasoningText d = .str t) (htne : t ≠ "")
    (hcr : c.current_reasoning = "") :
    (captureReasoning now d c ses).1 =
      { c with
        actions := c.actions ++
          [{ id := mkActionId c.current_turn (c.action_counter + 1) now,
             turn := c.current_turn, timestamp := now, action_type := "reasoning",
             input_data := .dict [("reasoning_text", .str t)],
             duration := some (now - now) }],
        current_reasoning := t,
        reasoning_start_time := some now,
        action_counter := c.action_counter + 1 } ∧
    (captureReasoning now d c ses).2 =
      syncToSession (captureReasoning now d c ses).1 ses := by
  have htr : pyTruthy (PyVal.str t) = true := by
    simp [pyTruthy, htne]
  have hemp : ("" : String) ++ t = t := rfl
  constructor
  · simp only [captureReasoning, ht, htr, hcr, eq_self_iff_true, if_true]
    rw [updLast_append_singleton _ _ _ _ (by simp)]
    simp [pyValSetKey_single, hemp]
  · simp only [captureReasoning, ht, htr, hcr, eq_self_iff_true, if_true]

/-- Later chunk of a reasoning sequence: `capture_reasoning` on a non-empty
`current_reasoning` appends nothing and rewrites the last reasoning action
of the current turn in place. -/
theorem captureReasoning_step (now : Nat) (d : PyVal) (c : Capture) (ses : Session)
    (t : String) (ht : extractReasoningText d = .str t) (htne : t ≠ "")
    (hcr : ¬(c.current_reasoning = ""))
    (base : List ActionEvent) (a : ActionEvent)
    (hacts : c.actions = base ++ [a])
    (hty : a.action_type = "reasoning") (hturn : a.turn = c.current_turn)
    (st : Nat) (hst : c.reasoning_start_time = some st) :
    (captureReasoning now d c ses).1 =
      { c with
        actions := base ++ [{ a with
          input_data := pyValSetKey a.input_data "reasoning_text"
            (.str (c.current_reasoning ++ t)),
          duration := some (now - st) }],
        current_reasoning := c.current_reasoning ++ t } := by
  have htr : pyTruthy (PyVal.str t) = true := by simp [pyTruthy, htne]
  have hpred : (fun x : ActionEvent =>
      x.action_type == "reasoning" && x.turn == c.current_turn) a = true := by
    simp [hty, hturn]
  simp only [captureReasoning, ht, htr, eq_self_iff_true, if_true, eq_false hcr,
    if_false, hst]
  rw [hacts, updLast_append_singleton
    (fun x : ActionEvent => x.action_type == "reasoning" && x.turn == c.current_turn)
    _ base a hpred]

theorem foldReasoning_go (tds : List (Nat × PyVal)) :
    ∀ (c : Capture) (ses : Session) (base : List ActionEvent) (a : ActionEvent)
      (st prev : Nat),
    (∀ td ∈ tds, ∃ t, extractReasoningText td.2 = .str t ∧ t ≠ "") →
    ¬(c.current_reasoning = "") →
    c.actions = base ++ [a] →
    a.action_type = "reasoning" →
    a.turn = c.current_turn →
    a.input_data = .dict [("reasoning_text", .str c.current_reasoning)] →
    a.duration = some (prev - st) →
    c.reasoning_start_time = some st →
    ∃ a2, (foldReasoning tds (c, ses)).1.actions = base ++ [a2] ∧
      a2.action_type = "reasoning" ∧
      a2.turn = c.current_turn ∧
      a2.input_data = .dict [("reasoning_text",
        .str (c.current_reasoning ++ concatReasoningTexts tds))] ∧
      a2.duration = some ((tds.map Prod.fst).getLastD prev - st) ∧
      (foldReasoning tds (c, ses)).1.current_reasoning =
        c.current_reasoning ++ concatReasoningTexts tds ∧
      (foldReasoning tds (c, ses)).1.current_turn = c.current_turn := by
  induction tds with
  | nil =>
      intro c ses base a st prev hstr hcr hacts hty hturn hinput hdur hst
      refine ⟨a, hacts, hty, hturn, ?_, ?_, ?_, rfl⟩
      · simpa [concatReasoningTexts] using hinput
      · simpa using hdur
      · simp [foldReasoning, concatReasoningTexts]
  | cons td rest ih =>
      intro c ses base a st prev hstr hcr hacts hty hturn hinput hdur hst
      obtain ⟨t0, ht0, ht0ne⟩ := hstr td (List.mem_cons_self _ _)
      have hstep := captureReasoning_step td.1 td.2 c ses t0 ht0 ht0ne hcr base a
        hacts hty hturn st hst
      have hfold : foldReasoning (td :: rest) (c, ses) =
          foldReasoning rest (captureReasoning td.1 td.2 c ses) := rfl
      have hpair : captureReasoning td.1 td.2 c ses =
          ((captureReasoning td.1 td.2 c ses).1, (captureReasoning td.1 td.2 c ses).2) := rfl
      have htail : ∀ td' ∈ rest, ∃ t, extractReasoningText td'.2 = .str t ∧ t ≠ "" :=
        fun td' h => hstr td' (List.mem_cons_of_mem _ h)
      have hres := ih (captureReasoning td.1 td.2 c ses).1
        (captureReasoning td.1 td.2 c ses).2 base
        ({ a with
          input_data := pyValSetKey a.input_data "reasoning_text"
            (.str (c.current_reasoning ++ t0)),
          duration := some (td.1 - st) })
        st td.1 htail
        (by rw [hstep]; exact string_append_ne_left _ _ hcr)
        (by rw [hstep])
        hty
        (by rw [hstep]; exact hturn)
        (by rw [hstep]; simp only [hinput, pyValSetKey_single])
        rfl
        (by rw [hstep]; exact hst)
      obtain ⟨a2, h1, h2, h3, h4, h5, h6, h7⟩ := hres
      have hCT : (captureReasoning td.1 td.2 c ses).1.current_turn = c.current_turn := by
        rw [hstep]
      have hCR : (captureReasoning td.1 td.2 c ses).1.current_reasoning =
          c.current_reasoning ++ t0 := by
        rw [hstep]
      have hconcat : concatReasoningTexts (td :: rest) =
          t0 ++ concatReasoningTexts rest := by
        simp [concatReasoningTexts, reasoningTextOf, ht0]
      refine ⟨a2, ?_, h2, ?_, ?_, ?_, ?_, ?_⟩
      · rw [hfold, hpair]; exact h1
      · rw [h3, hCT]
      · rw [h4, hCR, hconcat, String.append_assoc]
      · rw [h5]
        have hlast : ((td :: rest).map Prod.fst).getLastD prev =
            (rest.map Prod.fst).getLastD td.1 :=
          List.getLastD_cons prev td.1 (rest.map Prod.fst)
        rw [hlast]
      · rw [hfold, hpair, h6, hCR, hconcat, String.append_assoc]
      · rw [hfold, hpair, h7, hCT]

/-- C5: an uninterrupted reasoning sequence of non-empty string chunks
appends exactly one `reasoning` action; every later chunk only rewrites that
action's `reasoning_text` to the concatenation of all chunks so far and its
duration, appending nothing further. -/
theorem claim_C5 (tds : List (Nat × PyVal)) (c : Capture) (ses : Session)
    (td0 : Nat × PyVal) (rest : List (Nat × PyVal))
    (htds : tds = td0 :: rest)
    (hcr : c.current_reasoning = "")
    (hstr : ∀ td ∈ tds, ∃ t, extractReasoningText td.2 = .str t ∧ t ≠ "") :
    ∃ a2, (foldReasoning tds (c, ses)).1.actions = c.actions ++ [a2] ∧
      a2.action_type = "reasoning" ∧
      a2.turn = c.current_turn ∧
      a2.input_data = .dict [("reasoning_text", .str (concatReasoningTexts tds))] ∧
      a2.duration = some ((tds.map Prod.fst).getLastD td0.1 - td0.1) ∧
      (foldReasoning tds (c, ses)).1.current_reasoning = concatReasoningTexts tds ∧
      (foldReasoning tds (c, ses)).1.current_turn = c.current_turn := by
  subst htds
  obtain ⟨t0, ht0, ht0ne⟩ := hstr td0 (List.mem_cons_self _ _)
  obtain ⟨hf1, hf2⟩ := captureReasoning_first td0.1 td0.2 c ses t0 ht0 ht0ne hcr
  have hfold : foldReasoning (td0 :: rest) (c, ses) =
      foldReasoning rest (captureReasoning td0.1 td0.2 c ses) := rfl
  have hpair : captureReasoning td0.1 td0.2 c ses =
      ((captureReasoning td0.1 td0.2 c ses).1, (captureReasoning td0.1 td0.2 c ses).2) := rfl
  have htail : ∀ td' ∈ rest, ∃ t, extractReasoningText td'.2 = .str t ∧ t ≠ "" :=
    fun td' h => hstr td' (List.mem_cons_of_mem _ h)
  have hgo := foldReasoning_go rest (captureReasoning td0.1 td0.2 c ses).1
    (captureReasoning td0.1 td0.2 c ses).2 c.actions
    ({ id := mkActionId c.current_turn (c.action_counter + 1) td0.1,
       turn := c.current_turn, timestamp := td0.1, action_type := "reasoning",
       input_data := .dict [("reasoning_text", .str t0)],
       duration := some (td0.1 - td0.1) })
    td0.1 td0.1 htail
    (by rw [hf1]; exact ht0ne)
    (by rw [hf1])
    rfl
    (by rw [hf1])
    (by rw [hf1])
    rfl
    (by rw [hf1])
  obtain ⟨a2, h1, h2, h3, h4, h5, h6, h7⟩ := hgo
  have hCT : (captureReasoning td0.1 td0.2 c ses).1.current_turn = c.current_turn := by
    rw [hf1]
  have hCR : (captureReasoning td0.1 td0.2 c ses).1.current_reasoning = t0 := by
    rw [hf1]
  have hconcat : concatReasoningTexts (td0 :: rest) = t0 ++ concatReasoningTexts rest := by
    simp [concatReasoningTexts, reasoningTextOf, ht0]
  refine ⟨a2, ?_, h2, ?_, ?_, ?_, ?_, ?_⟩
  · rw [hfold, hpair]; exact h1
  · rw [h3, hCT]
  · rw [h4, hCR, hconcat]
  · rw [h5]
    have hlast : ((td0 :: rest).map Prod.fst).getLastD td0.1 =
        (rest.map Prod.fst).getLastD td0.1 :=
      List.getLastD_cons td0.1 td0.1 (rest.map Prod.fst)
    rw [hlast]
  · rw [hfold, hpair, h6, hCR, hconcat]
  · rw [hfold, hpair, h7, hCT]

/-- Witness for C5 on a concrete two-chunk reasoning sequence. -/
theorem claim_C5_witness :
    freshCapture.current_reasoning = "" ∧
    ∃ a2, (foldReasoning exReasoningSeq (freshCapture, freshSession)).1.actions =
        freshCapture.actions ++ [a2] ∧
      a2.action_type = "reasoning" ∧
      a2.turn = freshCapture.current_turn ∧
      a2.input_data = .dict [("reasoning_text",
        .str (concatReasoningTexts exReasoningSeq))] ∧
      a2.duration = some ((exReasoningSeq.map Prod.fst).getLastD 0 - 0) ∧
      (foldReasoning exReasoningSeq (freshCapture, freshSession)).1.current_reasoning =
        concatReasoningTexts exReasoningSeq ∧
      (foldReasoning exReasoningSeq (freshCapture, freshSession)).1.current_turn =
        freshCapture.current_turn := by
  refine ⟨rfl, ?_⟩
  have hstr : ∀ td ∈ exReasoningSeq, ∃ t, extractReasoningText td.2 = .str t ∧ t ≠ "" := by
    intro td h
    simp only [exReasoningSeq, List.mem_cons, List.mem_singleton,
      List.not_mem_nil, or_false] at h
    rcases h with rfl | rfl
    · exact ⟨"Let me think ", rfl, by decide⟩
    · exact ⟨"about it", rfl, by decide⟩
  exact claim_C5 exReasoningSeq freshCapture freshSession
    (0, .str "Let me think ") [(1, .dict [("text", .str "about it")])] rfl rfl hstr

/-- C8: `start_new_conversation` clears the action history, resets the turn
counter, installs a fresh `ActionHistoryCapture` (which syncs itself from
the just-cleared session) and a new conversation id, and stamps the cleanup
time, while leaving the `show_action_history` and `action_history_expanded`
UI preferences (and the chat messages) unchanged. -/
theorem claim_C8 (now : Nat) (newId : String) (ses : Session) :
    (startNewConversation now newId ses).action_history = [] ∧
    (startNewConversation now newId ses).current_turn = 0 ∧
    (startNewConversation now newId ses).action_capture = freshCapture ∧
    (startNewConversation now newId ses).conversation_id = newId ∧
    (startNewConversation now newId ses).last_cleanup_time = now ∧
    (startNewConversation now newId ses).show_action_history = ses.show_action_history ∧
    (startNewConversation now newId ses).action_history_expanded = ses.action_history_expanded ∧
    (startNewConversation now newId ses).messages = ses.messages :=
  ⟨rfl, rfl, rfl, rfl, rfl, rfl, rfl, rfl⟩

/-- C9: neither loader can fail: each returns the parsed JSON value exactly
when the resolved path exists and reads/parses cleanly, and its built-in
default (which for `load_config` carries model, agent, conversation and ui
sections) in every other case. -/
theorem claim_C9 (fs : FileSystem) (moduleDir : String) (cp : Option String) :
    (∀ p v, resolvePath fs (configPossiblePaths moduleDir) cp = some p →
      fs.pathExists p = true → fs.readParse p = some v →
      load_config fs moduleDir cp = v) ∧
    (∀ p, resolvePath fs (configPossiblePaths moduleDir) cp = some p →
      fs.pathExists p = true → fs.readParse p = Option.none →
      load_config fs moduleDir cp = defaultConfig) ∧
    (∀ p, resolvePath fs (configPossiblePaths moduleDir) cp = some p →
      fs.pathExists p = false → load_config fs moduleDir cp = defaultConfig) ∧
    (resolvePath fs (configPossiblePaths moduleDir) cp = Option.none →
      load_config fs moduleDir cp = defaultConfig) ∧
    (load_config fs moduleDir cp = defaultConfig ∨
      ∃ p, resolvePath fs (configPossiblePaths moduleDir) cp = some p ∧
        fs.readParse p = some (load_config fs moduleDir cp)) ∧
    (∀ k, k ∈ ["model", "agent", "conversation", "ui"] →
      pyValGetKey defaultConfig k ≠ .none) ∧
    (∀ p v, resolvePath fs (mcpPossiblePaths moduleDir) cp = some p →
      fs.pathExists p = true → fs.readParse p = some v →
      load_mcp_config fs moduleDir cp = v) ∧
    (∀ p, resolvePath fs (mcpPossiblePaths moduleDir) cp = some p →
      fs.pathExists p = true → fs.readParse p = Option.none →
      load_mcp_config fs moduleDir cp = defaultMcpConfig) ∧
    (∀ p, resolvePath fs (mcpPossiblePaths moduleDir) cp = some p →
      fs.pathExists p = false → load_mcp_config fs moduleDir cp = defaultMcpConfig) ∧
    (resolvePath fs (mcpPossiblePaths moduleDir) cp = Option.none →
      load_mcp_config fs moduleDir cp = defaultMcpConfig) := by
  refine ⟨?_, ?_, ?_, ?_, ?_, ?_, ?_, ?_, ?_, ?_⟩
  · intro p v hres hex hrd
    simp [load_config, hres, hex, hrd]
  · intro p hres hex hrd
    simp [load_config, hres, hex, hrd]
  · intro p hres hex
    simp [load_config, hres, hex]
  · intro hres
    simp [load_config, hres]
  · cases hres : resolvePath fs (configPossiblePaths moduleDir) cp with
    | none => exact Or.inl (by simp [load_config, hres])
    | some p =>
        cases hex : fs.pathExists p with
        | false => exact Or.inl (by simp [load_config, hres, hex])
        | true =>
            cases hrd : fs.readParse p with
            | none => exact Or.inl (by simp [load_config, hres, hex, hrd])
            | some v =>
                exact Or.inr ⟨p, rfl, by simp [load_config, hres, hex, hrd]⟩
  · intro k hk
    simp only [List.mem_cons, List.mem_singleton, List.not_mem_nil, or_false] at hk
    rcases hk with rfl | rfl | rfl | rfl <;> simp [defaultConfig, pyValGetKey, pyGet]
  · intro p v hres hex hrd
    simp [load_mcp_config, hres, hex, hrd]
  · intro p hres hex hrd
    simp [load_mcp_config, hres, hex, hrd]
  · intro p hres hex
    simp [load_mcp_config, hres, hex]
  · intro hres
    simp [load_mcp_config, hres]

/-- Witness for C9: a file system where only the first candidate path
exists and parses, and one where nothing exists. -/
theorem claim_C9_witness :
    resolvePath exFS (configPossiblePaths "/app") Option.none =
        some "config_with_thinking.json" ∧
    exFS.pathExists "config_with_thinking.json" = true ∧
    exFS.readParse "config_with_thinking.json" = some (.dict [("model", .dict [])]) ∧
    load_config exFS "/app" Option.none = .dict [("model", .dict [])] := by
  have h1 : resolvePath exFS (configPossiblePaths "/app") Option.none =
      some "config_with_thinking.json" := by
    simp [resolvePath, configPossiblePaths, exFS]
  have h2 : exFS.pathExists "config_with_thinking.json" = true := by
    simp [exFS]
  have h3 : exFS.readParse "config_with_thinking.json" =
      some (.dict [("model", .dict [])]) := by
    simp [exFS]
  exact ⟨h1, h2, h3, (claim_C9 exFS "/app" Option.none).1 _ _ h1 h2 h3⟩

/-- C10: the composite callback handler invokes every chained handler
exactly once, in list order (splitting the list splits the run
sequentially), swallows exceptions so that a raising handler does not stop
the ones after it, and never itself propagates an exception (it is a total
function yielding one outcome per handler). -/
theorem claim_C10 (σ : Type) (ev : PyDict) (s : σ)
    (hs hs1 hs2 : List (Handler σ)) (f : PyDict → σ → σ × Bool) :
    (compositeCall hs ev s).2.length = hs.length ∧
    (compositeCall (hs1 ++ hs2) ev s =
      ((compositeCall hs2 ev (compositeCall hs1 ev s).1).1,
       (compositeCall hs1 ev s).2 ++ (compositeCall hs2 ev (compositeCall hs1 ev s).1).2)) ∧
    (compositeCall (Handler.callable f :: hs) ev s =
      ((compositeCall hs ev (f ev s).1).1, (f ev s).2 :: (compositeCall hs ev (f ev s).1).2)) ∧
    (compositeCall (Handler.notCallable :: hs) ev s =
      ((compositeCall hs ev s).1, false :: (compositeCall hs ev s).2)) := by
  refine ⟨?_, ?_, rfl, rfl⟩
  · induction hs generalizing s with
    | nil => rfl
    | cons h rest ih => simp [compositeCall, ih]
  · induction hs1 generalizing s with
    | nil => rfl
    | cons h rest ih =>
        show compositeCall (h :: (rest ++ hs2)) ev s = _
        simp only [compositeCall]
        rw [ih]
        rfl

theorem collapseGo_head_not_space :
    ∀ (l : List Char) (c : Char), (collapseGo true l).head? = some c →
      pyIsSpace c = false := by
  intro l
  induction l with
  | nil => intro c h; simp [collapseGo] at h
  | cons x rest ih =>
      intro c h
      by_cases hx : pyIsSpace x = true
      · simp only [collapseGo, hx, eq_self_iff_true, if_true] at h
        exact ih c h
      · have hrw : collapseGo true (x :: rest) = x :: collapseGo false rest := by
          simp [collapseGo, hx]
        rw [hrw, List.head?_cons, Option.some_inj] at h
        rw [← h]
        exact Bool.not_eq_true _ ▸ hx

theorem collapseGo_chain (l : List Char) :
    ∀ b, List.Chain' (fun a c => ¬(pyIsSpace a = true ∧ pyIsSpace c = true))
      (collapseGo b l) := by
  induction l with
  | nil => intro b; simp [collapseGo]
  | cons x rest ih =>
      intro b
      by_cases hx : pyIsSpace x = true
      · by_cases hb : b = true
        · subst hb
          simp only [collapseGo, hx, eq_self_iff_true, if_true]
          exact ih true
        · have hb' : b = false := by
            cases b
            · rfl
            · exact absurd rfl hb
          subst hb'
          have hrw : collapseGo false (x :: rest) = ' ' :: collapseGo true rest := by
            simp [collapseGo, hx]
          rw [hrw, List.chain'_cons']
          refine ⟨?_, ih true⟩
          intro y hy
          have := collapseGo_head_not_space rest y hy
          simp [this]
      · have hrw : collapseGo b (x :: rest) = x :: collapseGo false rest := by
          simp [collapseGo, hx]
        rw [hrw, List.chain'_cons']
        refine ⟨?_, ih false⟩
        intro y _
        simp [hx]

theorem pyStripL_prefix (l : List Char) :
    ∃ t, pyStripL l ++ t = l.dropWhile pyIsSpace := by
  obtain ⟨s, hs⟩ := List.dropWhile_suffix (l := (l.dropWhile pyIsSpace).reverse)
    (p := pyIsSpace)
  refine ⟨s.reverse, ?_⟩
  have := congrArg List.reverse hs
  simpa [pyStripL, List.reverse_append] using this

theorem pyStripL_head_not_space (l : List Char) (c : Char)
    (h : (pyStripL l).head? = some c) : pyIsSpace c = false := by
  obtain ⟨t, ht⟩ := pyStripL_prefix l
  have hdw := List.head?_dropWhile_not pyIsSpace l
  rcases hsp : pyStripL l with _ | ⟨c0, rest⟩
  · rw [hsp] at h; simp at h
  · rw [hsp] at h
    simp only [List.head?_cons, Option.some_inj] at h
    rw [hsp] at ht
    rw [← ht] at hdw
    simp only [List.cons_append, List.head?_cons] at hdw
    rw [← h]
    exact hdw

theorem pyStripL_getLast_not_space (l : List Char) (c : Char)
    (h : (pyStripL l).getLast? = some c) : pyIsSpace c = false := by
  have hrev : (pyStripL l).getLast? =
      ((l.dropWhile pyIsSpace).reverse.dropWhile pyIsSpace).head? := by
    simp [pyStripL, List.getLast?_reverse]
  rw [hrev] at h
  have hdw := List.head?_dropWhile_not pyIsSpace (l.dropWhile pyIsSpace).reverse
  rw [h] at hdw
  exact hdw

theorem pyStripL_chain {R : Char → Char → Prop} (l : List Char)
    (hc : List.Chain' R l) : List.Chain' R (pyStripL l) := by
  have h1 : List.Chain' R (l.dropWhile pyIsSpace) :=
    hc.suffix (List.dropWhile_suffix pyIsSpace)
  have h2 : List.Chain' (flip R) ((l.dropWhile pyIsSpace).reverse) :=
    (List.chain'_reverse (R := flip R)).mpr h1
  have h3 : List.Chain' (flip R)
      ((l.dropWhile pyIsSpace).reverse.dropWhile pyIsSpace) :=
    h2.suffix (List.dropWhile_suffix pyIsSpace)
  exact (List.chain'_reverse (R := R)).mpr h3

theorem filter_core_chain (l : List Char) :
    List.Chain' (fun a c => ¬(pyIsSpace a = true ∧ pyIsSpace c = true))
      (pyStripL (collapseWs l)) :=
  pyStripL_chain _ (collapseGo_chain _ false)

/-- C1: `_filter_reasoning_patterns` returns the falsy input unchanged;
on any other input it removes the matches of the listed case-insensitive
reasoning patterns, collapses every whitespace run of the survivor to one
space, strips it, and returns the empty string when the survivor is empty
or shorter than 10 characters — so every non-empty result has at least 10
characters, no two adjacent whitespace characters, and no leading or
trailing whitespace. -/
theorem claim_C1 (s : String) :
    filter_reasoning_patterns "" = "" ∧
    (s ≠ "" → filter_reasoning_patterns s =
      (if (pyStripL (collapseWs (subAllPatterns s.toList))).isEmpty ||
          (pyStripL (collapseWs (subAllPatterns s.toList))).length < 10
       then ""
       else String.mk (pyStripL (collapseWs (subAllPatterns s.toList))))) ∧
    (filter_reasoning_patterns s = "" ∨
      (10 ≤ (filter_reasoning_patterns s).length ∧
       List.Chain' (fun a c => ¬(pyIsSpace a = true ∧ pyIsSpace c = true))
         (filter_reasoning_patterns s).toList ∧
       (∀ c, (filter_reasoning_patterns s).toList.head? = some c →
         pyIsSpace c = false) ∧
       (∀ c, (filter_reasoning_patterns s).toList.getLast? = some c →
         pyIsSpace c = false))) := by
  have key : ∀ t : String, t ≠ "" → filter_reasoning_patterns t =
      (if (pyStripL (collapseWs (subAllPatterns t.toList))).isEmpty ||
          (pyStripL (collapseWs (subAllPatterns t.toList))).length < 10
       then ""
       else String.mk (pyStripL (collapseWs (subAllPatterns t.toList)))) := by
    intro t ht
    unfold filter_reasoning_patterns
    rw [if_neg ht]
  refine ⟨rfl, key s, ?_⟩
  by_cases hs : s = ""
  · subst hs; exact Or.inl rfl
  · obtain ⟨l0, hl0⟩ : ∃ l0, subAllPatterns s.toList = l0 := ⟨_, rfl⟩
    have hfil := key s hs
    rw [hl0] at hfil
    by_cases hcond : ((pyStripL (collapseWs l0)).isEmpty ||
        decide ((pyStripL (collapseWs l0)).length < 10)) = true
    · exact Or.inl (by rw [hfil, if_pos hcond])
    · have hres : filter_reasoning_patterns s = String.mk (pyStripL (collapseWs l0)) := by
        rw [hfil, if_neg hcond]
      have hlen : ¬(pyStripL (collapseWs l0)).length < 10 := by
        simp only [Bool.or_eq_true, not_or] at hcond
        simpa using hcond.2
      have hchain := filter_core_chain l0
      refine Or.inr ⟨?_, ?_, ?_, ?_⟩
      · rw [hres]
        exact Nat.not_lt.mp hlen
      · rw [hres]
        exact hchain
      · intro c hc
        rw [hres] at hc
        exact pyStripL_head_not_space (collapseWs l0) c hc
      · intro c hc
        rw [hres] at hc
        exact pyStripL_getLast_not_space (collapseWs l0) c hc

/-- Witness for C1 at a concrete non-empty input. -/
theorem claim_C1_witness :
    ("This is a plain sentence." : String) ≠ "" ∧
    filter_reasoning_patterns "This is a plain sentence." =
      (if (pyStripL (collapseWs (subAllPatterns "This is a plain sentence.".toList))).isEmpty ||
          (pyStripL (collapseWs (subAllPatterns "This is a plain sentence.".toList))).length < 10
       then ""
       else String.mk (pyStripL (collapseWs (subAllPatterns "This is a plain sentence.".toList)))) :=
  ⟨by decide, (claim_C1 "This is a plain sentence.").2.1 (by decide)⟩

/-- C7: handling a final message clears the tools and reasoning flags; the
derived text is the reasoning-filtered concatenation of the `text` fields
of the dict blocks when the message is a dict with a list content, the
reasoning-filtered message itself for a string message, and `""` for every
other shape (including `None`); `final_response` changes only when the
derived text is non-empty. -/
theorem claim_C7 (m : PyVal) (h : CRH) :
    (handleFinalMessage m h).1.tools_active = false ∧
    (handleFinalMessage m h).1.reasoning_active = false ∧
    (∀ dd blocks, m = .dict dd → pyHas dd "content" = true →
      pyGet dd "content" .none = .list blocks →
      extract_clean_text m = (concatTextBlocks blocks).map filterReasoningContent) ∧
    (∀ t, m = .str t → extract_clean_text m = some (filterReasoningContent t)) ∧
    ((∀ dd, m = .dict dd → pyHas dd "content" = false →
        extract_clean_text m = some "") ∧
     (∀ dd, m = .dict dd → (∀ blocks, pyGet dd "content" .none ≠ .list blocks) →
        extract_clean_text m = some "") ∧
     (∀ n, m = .int n → extract_clean_text m = some "") ∧
     (m = .none → extract_clean_text m = some "") ∧
     (∀ b, m = .bool b → extract_clean_text m = some "") ∧
     (∀ q, m = .float q → extract_clean_text m = some "") ∧
     (∀ l, m = .list l → extract_clean_text m = some "")) ∧
    (extract_clean_text m = some "" →
      (handleFinalMessage m h).1.final_response = h.final_response) ∧
    (extract_clean_text m = Option.none →
      (handleFinalMessage m h).1.final_response = h.final_response) ∧
    (∀ t, extract_clean_text m = some t → t ≠ "" →
      (handleFinalMessage m h).1.final_response = t) := by
  have hflags : (handleFinalMessage m h).1.tools_active = false ∧
      (handleFinalMessage m h).1.reasoning_active = false := by
    cases hx : extract_clean_text m with
    | none => simp [handleFinalMessage, hx]
    | some t =>
        by_cases ht : t = "" <;> simp [handleFinalMessage, hx, ht]
  refine ⟨hflags.1, hflags.2, ?_, ?_, ⟨?_, ?_, ?_, ?_, ?_, ?_, ?_⟩, ?_, ?_, ?_⟩
  · intro dd blocks hm hhas hget
    subst hm
    have hne : dd.isEmpty = false := by
      cases dd with
      | nil => simp [pyHas] at hhas
      | cons x t => rfl
    simp [extract_clean_text, pyTruthy, hne, hhas, hget]
  · intro t hm
    subst hm
    by_cases ht : t = ""
    · subst ht
      simp [extract_clean_text, pyTruthy, filterReasoningContent]
    · simp [extract_clean_text, pyTruthy, ht]
  · intro dd hm hhas
    subst hm
    by_cases htr : pyTruthy (.dict dd) = false <;>
      simp [extract_clean_text, htr, hhas, filterReasoningContent]
  · intro dd hm hget
    subst hm
    by_cases htr : pyTruthy (.dict dd) = false
    · simp [extract_clean_text, htr]
    · rcases hg : pyGet dd "content" .none with t | n | q | b | _ | l | d2 <;>
        first
          | exact absurd hg (hget _)
          | (by_cases hhas : pyHas dd "content" = true <;>
              simp [extract_clean_text, htr, hhas, hg, filterReasoningContent])
  · intro n hm; subst hm
    by_cases htr : pyTruthy (.int n) = false <;>
      simp [extract_clean_text, htr, filterReasoningContent]
  · intro hm; subst hm
    simp [extract_clean_text, pyTruthy]
  · intro b hm; subst hm
    by_cases htr : pyTruthy (.bool b) = false <;>
      simp [extract_clean_text, htr, filterReasoningContent]
  · intro q hm; subst hm
    by_cases htr : pyTruthy (.float q) = false <;>
      simp [extract_clean_text, htr, filterReasoningContent]
  · intro l hm; subst hm
    by_cases htr : pyTruthy (.list l) = false <;>
      simp [extract_clean_text, htr, filterReasoningContent]
  · intro hx
    simp [handleFinalMessage, hx]
  · intro hx
    simp [handleFinalMessage, hx]
  · intro t hx ht
    simp [handleFinalMessage, hx, ht]

/-- Witness for C7 at a concrete final message with mixed content blocks. -/
theorem claim_C7_witness :
    pyHas exMessageDict "content" = true ∧
    pyGet exMessageDict "content" .none = .list exBlocks ∧
    extract_clean_text (.dict exMessageDict) =
      (concatTextBlocks exBlocks).map filterReasoningContent ∧
    (handleFinalMessage (.dict exMessageDict) crh0).1.tools_active = false := by
  refine ⟨rfl, rfl, ?_, ?_⟩
  · exact (claim_C7 (.dict exMessageDict) crh0).2.2.1 exMessageDict exBlocks rfl rfl rfl
  · exact (claim_C7 (.dict exMessageDict) crh0).1

theorem shCall_data (h : SH) (t : String) :
    (shCall [("data", .str t)] h).2 = false ∧
    (shCall [("data", .str t)] h).1.message_container =
      (if t ≠ "" ∧ h.is_thinking = false ∧ isReasoningText t = false ∧
          isSmallReasoningFragment t = false
       then h.message_container ++ t else h.message_container) ∧
    (shCall [("data", .str t)] h).1.delta_buffer = h.delta_buffer := by
  by_cases ht : t = "" <;>
  by_cases hth : h.is_thinking = true <;>
  by_cases hrt : isReasoningText t = true <;>
  by_cases hsf : isSmallReasoningFragment t = true <;>
    simp_all [shCall, firstEventKey, shTextStreaming, shToolEvents, pyHas,
      pyGet, pyInStr, pyIndexKey, pyTruthy]

theorem shCall_cbd (h : SH) (t : String) :
    (shCall [("content_block_delta",
        .dict [("delta", .dict [("text", .str t)])])] h).2 = false ∧
    (shCall [("content_block_delta",
        .dict [("delta", .dict [("text", .str t)])])] h).1.message_container =
      (if t ≠ "" ∧ h.is_thinking = false ∧ isReasoningText t = false ∧
          isSmallReasoningFragment t = false
       then h.message_container ++ t else h.message_container) ∧
    (shCall [("content_block_delta",
        .dict [("delta", .dict [("text", .str t)])])] h).1.delta_buffer =
      h.delta_buffer := by
  by_cases ht : t = "" <;>
  by_cases hth : h.is_thinking = true <;>
  by_cases hrt : isReasoningText t = true <;>
  by_cases hsf : isSmallReasoningFragment t = true <;>
    simp_all [shCall, firstEventKey, shTextStreaming, shToolEvents, pyHas,
      pyGet, pyInStr, pyIndexKey, pyTruthy, strContains, subListAt]

theorem shCall_delta (h : SH) (t : String) :
    (shCall [("delta", .dict [("text", .str t)])] h).2 = false ∧
    (shCall [("delta", .dict [("text", .str t)])] h).1.delta_buffer =
      (if t ≠ "" ∧ h.is_thinking = false ∧ h.tools_in_use = false ∧
          isReasoningText t = false ∧ isSmallReasoningFragment t = false
       then h.delta_buffer ++ t else h.delta_buffer) ∧
    (shCall [("delta", .dict [("text", .str t)])] h).1.message_container =
      (if t ≠ "" ∧ h.is_thinking = false ∧ isReasoningText t = false ∧
          isSmallReasoningFragment t = false
       then h.message_container ++ t else h.message_container) := by
  by_cases ht : t = "" <;>
  by_cases hth : h.is_thinking = true <;>
  by_cases hrt : isReasoningText t = true <;>
  by_cases hsf : isSmallReasoningFragment t = true <;>
  by_cases htu : h.tools_in_use = true <;>
    simp_all [shCall, firstEventKey, shTextStreaming, shToolEvents, pyHas,
      pyGet, pyInStr, pyIndexKey, pyTruthy]

/-- C6 (amended): for the streamed-chunk events, a chunk is appended to
`message_container` exactly when the handler is not in thinking mode and
neither `_is_reasoning_text` nor `_is_small_reasoning_fragment` flags it —
the tools-in-use flag is *not* consulted on that path — while the `delta`
event additionally appends to `delta_buffer` only when tools are also not
in use; a chunk failing the applicable conditions leaves the respective
buffer unchanged, and none of these events raises. -/
theorem claim_C6 (h : SH) (t : String) :
    ((shCall [("data", .str t)] h).2 = false ∧
     (shCall [("data", .str t)] h).1.message_container =
       (if t ≠ "" ∧ h.is_thinking = false ∧ isReasoningText t = false ∧
           isSmallReasoningFragment t = false
        then h.message_container ++ t else h.message_container) ∧
     (shCall [("data", .str t)] h).1.delta_buffer = h.delta_buffer) ∧
    ((shCall [("content_block_delta",
        .dict [("delta", .dict [("text", .str t)])])] h).2 = false ∧
     (shCall [("content_block_delta",
        .dict [("delta", .dict [("text", .str t)])])] h).1.message_container =
       (if t ≠ "" ∧ h.is_thinking = false ∧ isReasoningText t = false ∧
           isSmallReasoningFragment t = false
        then h.message_container ++ t else h.message_container) ∧
     (shCall [("content_block_delta",
        .dict [("delta", .dict [("text", .str t)])])] h).1.delta_buffer =
       h.delta_buffer) ∧
    ((shCall [("delta", .dict [("text", .str t)])] h).2 = false ∧
     (shCall [("delta", .dict [("text", .str t)])] h).1.delta_buffer =
       (if t ≠ "" ∧ h.is_thinking = false ∧ h.tools_in_use = false ∧
           isReasoningText t = false ∧ isSmallReasoningFragment t = false
        then h.delta_buffer ++ t else h.delta_buffer) ∧
     (shCall [("delta", .dict [("text", .str t)])] h).1.message_container =
       (if t ≠ "" ∧ h.is_thinking = false ∧ isReasoningText t = false ∧
           isSmallReasoningFragment t = false
        then h.message_container ++ t else h.message_container)) :=
  ⟨shCall_data h t, shCall_cbd h t, shCall_delta h t⟩

/-- Counterexample for C6 as stated: after a `tool_use` event sets
`tools_in_use`, a streamed `data` chunk that no classifier flags is still
appended to `message_container` — `_handle_text_streaming` never checks
`tools_in_use`. -/
theorem claim_C6_counterexample :
    (shCall exToolUseEvent sh0).1.tools_in_use = true ∧
    (shCall exDataEvent (shCall exToolUseEvent sh0).1).1.message_container =
      (shCall exToolUseEvent sh0).1.message_container ++ exChunk ∧
    (shCall exDataEvent (shCall exToolUseEvent sh0).1).1.message_container ≠
      (shCall exToolUseEvent sh0).1.message_container := by
  refine ⟨by decide, by decide, by decide⟩

end StrandsWebUI
